import Mathlib

/-!
Shallow embedding of the "Mini CFO Copilot" finance agent.

The repository holds several near-duplicate implementations:
  * `src/agent/engine.py`   — the engine wired to the app and the test suites
                              (`_load`, `_to_usd`, `_build_pivots`, `_opex_breakdown`,
                               `_cash_runway_months`, `build_engine.answer`);
  * `src/engine.py`         — a flat near-duplicate of the same engine;
  * `src/agent/planner.py`  — the rule-based `Planner.parse`;
  * `src/agent/tools.py`    — `FinanceTools` (`_prepare_pl`, `_summarise_pl`,
                               `_opex_breakdown`, `opex_breakdown`, `cash_runway`).

Dataframes are embedded as lists of rows, money amounts as rationals (the
Python code computes with binary floats; all the properties verified here are
exact identities of the dataflow, stated over ℚ), month-start dates as
year/month pairs, and Python strings as lists of characters.  `NaN` cells are
embedded as `none` of an `Option` type, and operations that raise in Python
(`DataFrame.loc` misses, `iloc[-1]` on an empty frame) return `Except.error`.
-/

namespace CFO

abbrev Chars := List Char

/-- Character list of a string literal. -/
def kw (s : String) : Chars := s.toList

/-- Python `str.lower` on the ASCII range (all question text and account
names in this code base are ASCII). -/
def lowerChar (c : Char) : Char :=
  if 'A' ≤ c ∧ c ≤ 'Z' then Char.ofNat (c.toNat + 32) else c

/-- Lower-casing of a whole string, as `question.lower()` does. -/
def lower (s : Chars) : Chars := s.map lowerChar

/-- Python substring containment `needle in hay`. -/
def hasSub (needle hay : Chars) : Bool := decide (needle <:+: hay)

/-- Python `str.startswith`. -/
def isPre (p s : Chars) : Bool := p.isPrefixOf s

/-- ASCII letters, which is what `[a-z]*` matches under `re.I`. -/
def isLetterC (c : Char) : Bool := ('a' ≤ c && c ≤ 'z') || ('A' ≤ c && c ≤ 'Z')

/-- The whitespace class `\s` of `re` (the characters that occur in this data). -/
def isSpaceC (c : Char) : Bool := c = ' ' || c = '\t' || c = '\n' || c = '\r'

def isDigitC (c : Char) : Bool := '0' ≤ c && c ≤ '9'

/-- Numeric value of a digit string (the caller checks the digits). -/
def decimalVal (s : Chars) : ℕ := s.foldl (fun a c => a * 10 + (c.toNat - 48)) 0

/-- Reads a maximal run of leading digits: value, how many, and the rest. -/
def readDigits : Chars → ℕ × ℕ × Chars
  | c :: rest =>
    if isDigitC c then
      let (v, n, r) := readDigits rest
      ((c.toNat - 48) * 10 ^ n + v, n + 1, r)
    else (0, 0, c :: rest)
  | [] => (0, 0, [])

/-- `re.search` tries every start position left to right; `f` reports a match
attempt at one position. -/
def scanFor {α : Type} (f : Chars → Option α) : Chars → Option α
  | [] => f []
  | c :: rest =>
    match f (c :: rest) with
    | some v => some v
    | none => scanFor f rest

/-! ## Planner (src/agent/planner.py) -/

inductive Intent
  | cash_runway | breakdown | trend | point
deriving DecidableEq, Repr

/-- A month-start date (`pd.Timestamp(year, month, 1)` / `datetime(y, m, 1)`). -/
structure MD where
  year : ℕ
  month : ℕ
deriving DecidableEq, Repr

/-- `Plan` dataclass of `src/agent/planner.py`. -/
structure Plan where
  intent : Intent
  metric : Option Chars
  month : Option MD
  months : Option ℕ
  compare_budget : Bool
deriving DecidableEq, Repr

deriving instance DecidableEq for Except

/-- `METRIC_KEYWORDS` of `src/agent/planner.py`, in dict insertion order. -/
def METRIC_KEYWORDS : List (Chars × List Chars) :=
  [ (kw ("revenue"), [kw ("revenue"), kw ("sales"), kw ("top line")])
  , (kw ("gross margin %"), [kw ("gross margin"), kw ("gm%"), kw ("margin%"), kw ("margin %")])
  , (kw ("gross profit"), [kw ("gross profit"), kw ("gp")])
  , (kw ("cogs"), [kw ("cogs"), kw ("cost of goods"), kw ("costs")])
  , (kw ("opex"), [kw ("opex"), kw ("operating expense"), kw ("expenses")])
  , (kw ("ebitda"), [kw ("ebitda"), kw ("operating income")])
  , (kw ("ebitda %"), [kw ("ebitda %"), kw ("ebitda margin")]) ]

/-- `Planner._detect_metric`: first metric whose alias list hits; default revenue. -/
def detect_metric (text : Chars) : Chars :=
  match METRIC_KEYWORDS.find? (fun p => p.2.any (fun k => hasSub k text)) with
  | some p => p.1
  | none => kw ("revenue")

/-- `Planner._detect_vs_budget`. -/
def detect_vs_budget (text : Chars) : Bool :=
  [kw ("vs budget"), kw ("versus budget"), kw ("budget"), kw ("variance")].any
    (fun p => hasSub p text)

/-- One attempt of `re.search(r"last (\d+) month", text)` at a fixed position. -/
def matchLastNAt (s : Chars) : Option ℕ :=
  if isPre (kw ("last ")) s then
    let (v, n, rest) := readDigits (s.drop 5)
    if 0 < n && isPre (kw (" month")) rest then some v else none
  else none

/-- One attempt of `re.search(r"trailing (\d+)", text)` at a fixed position. -/
def matchTrailingAt (s : Chars) : Option ℕ :=
  if isPre (kw ("trailing ")) s then
    let (v, n, _) := readDigits (s.drop 9)
    if 0 < n then some v else none
  else none

/-- `Planner._detect_trailing_months`. -/
def detect_trailing_months (text : Chars) : Option ℕ :=
  match scanFor matchLastNAt text with
  | some v => some v
  | none => scanFor matchTrailingAt text

/-- Three-letter month codes, in the order of the planner regex alternation. -/
def monthCodes : List (Chars × ℕ) :=
  [ (kw ("jan"), 1), (kw ("feb"), 2), (kw ("mar"), 3), (kw ("apr"), 4)
  , (kw ("may"), 5), (kw ("jun"), 6), (kw ("jul"), 7), (kw ("aug"), 8)
  , (kw ("sep"), 9), (kw ("oct"), 10), (kw ("nov"), 11), (kw ("dec"), 12) ]

/-- The month words `dateutil.parser.parse` accepts for each month (full
names, three-letter abbreviations, and `sept`).  The planner regex also
matches arbitrary letter runs after a month code (`[a-z]*`, e.g. "maybe
2025", "junk 2025"); on such words `dateparser.parse` raises, and
`Planner._detect_month` has no try/except, so the exception escapes
`Planner.parse` (embedded as `Except.error`, see `detect_month`). -/
def monthWords : List (Chars × ℕ) :=
  [ (kw ("jan"), 1), (kw ("january"), 1), (kw ("feb"), 2), (kw ("february"), 2)
  , (kw ("mar"), 3), (kw ("march"), 3), (kw ("apr"), 4), (kw ("april"), 4)
  , (kw ("may"), 5), (kw ("jun"), 6), (kw ("june"), 6), (kw ("jul"), 7)
  , (kw ("july"), 7), (kw ("aug"), 8), (kw ("august"), 8), (kw ("sep"), 9)
  , (kw ("sept"), 9), (kw ("september"), 9), (kw ("oct"), 10), (kw ("october"), 10)
  , (kw ("nov"), 11), (kw ("november"), 11), (kw ("dec"), 12), (kw ("december"), 12) ]

/-- One attempt, at a fixed position, of the planner month regex
`(jan|feb|...|dec)[a-z]*\s+20\d{2}` (case-insensitive), followed by
`dateparser.parse` of the matched text.  Outer `none`: no syntactic match
here, keep scanning.  `some none`: the regex matched but the matched word is
not a month word, so `dateparser.parse` raises uncaught.  `some (some d)`:
a month was extracted. -/
def matchPlannerMonthAt (s : Chars) : Option (Option MD) :=
  match monthCodes.find? (fun cm => isPre cm.1 (lower s)) with
  | none => none
  | some cm =>
    let rest := s.drop 3
    let letters := rest.takeWhile isLetterC
    let rest2 := rest.drop letters.length
    let spaces := rest2.takeWhile isSpaceC
    let rest3 := rest2.drop spaces.length
    if 0 < spaces.length && (rest3.take 2) = kw ("20")
        && ((rest3.drop 2).take 2).length = 2 && ((rest3.drop 2).take 2).all isDigitC then
      let word := lower (s.take 3 ++ letters)
      if monthWords.any (fun w => w.1 = word && w.2 = cm.2) then
        some (some ⟨decimalVal (rest3.take 4), cm.2⟩)
      else some none
    else none

/-- One attempt of the planner ISO regex `20\d{2}-(0[1-9]|1[0-2])`. -/
def matchPlannerIsoAt (s : Chars) : Option MD :=
  if (s.take 2) = kw ("20") && ((s.drop 2).take 2).length = 2
      && ((s.drop 2).take 2).all isDigitC && (s.drop 4).take 1 = kw ("-") then
    let mm := (s.drop 5).take 2
    if mm.length = 2 && mm.all isDigitC && 1 ≤ decimalVal mm && decimalVal mm ≤ 12 then
      some ⟨decimalVal (s.take 4), decimalVal mm⟩
    else none
  else none

/-- `Planner._detect_month`: a name-pattern match is fed to
`dateparser.parse`, which raises on non-month words ("maybe 2025"); there is
no try/except, so that raise propagates (`Except.error`).  The ISO pattern
only matches text `dateparser` always accepts. -/
def detect_month (text : Chars) : Except Unit (Option MD) :=
  match scanFor matchPlannerMonthAt text with
  | some (some d) => Except.ok (some d)
  | some none => Except.error ()
  | none =>
    match scanFor matchPlannerIsoAt text with
    | some d => Except.ok (some d)
    | none => Except.ok none

/-- Trend keyword list of `Planner.parse`. -/
def plannerTrendWords : List Chars :=
  [ kw ("trend"), kw ("over time"), kw ("chart"), kw ("plot"), kw ("line")
  , kw ("last"), kw ("history"), kw ("trailing") ]

/-- `Planner.parse` of `src/agent/planner.py`.  The runway check returns
before any extraction; every other path first runs `_detect_month`, whose
uncaught `dateparser` exception escapes the whole parse (`Except.error`). -/
def Planner.parse (question : Chars) : Except Unit Plan :=
  let ql := lower question
  if hasSub (kw ("cash runway")) ql || hasSub (kw ("runway")) ql then
    Except.ok ⟨Intent.cash_runway, none, none, none, false⟩
  else
    let metric := detect_metric ql
    match detect_month question with
    | Except.error e => Except.error e
    | Except.ok month =>
      let months := detect_trailing_months ql
      let compare_budget := detect_vs_budget ql
      if hasSub (kw ("break down")) ql || hasSub (kw ("breakdown")) ql then
        Except.ok ⟨Intent.breakdown, some (kw ("opex")), month, none, compare_budget⟩
      else if plannerTrendWords.any (fun w => hasSub w ql) then
        Except.ok ⟨Intent.trend, some metric, none, months, compare_budget⟩
      else
        Except.ok ⟨Intent.point, some metric, month, none, compare_budget⟩

/-- The runway trigger exactly as the specification words it: the phrase
"cash runway", or both "cash" and "runway".  (Stated from the spec, to be
compared with the planner source, which tests `"cash runway" or "runway"`.) -/
def claimRunwayCond (question : Chars) : Bool :=
  let ql := lower question
  hasSub (kw ("cash runway")) ql || (hasSub (kw ("cash")) ql && hasSub (kw ("runway")) ql)

/-- The breakdown trigger exactly as the specification words it.  (Stated from
the spec; the planner source omits the "by category" alternative.) -/
def claimBreakdownCond (question : Chars) : Bool :=
  let ql := lower question
  hasSub (kw ("break down")) ql || hasSub (kw ("breakdown")) ql
    || hasSub (kw ("by category")) ql

/-! ## Data loading and currency normalisation -/

/-- Python `str.upper` on the ASCII range. -/
def upperChar (c : Char) : Char :=
  if 'a' ≤ c ∧ c ≤ 'z' then Char.ofNat (c.toNat - 32) else c

def upper (s : Chars) : Chars := s.map upperChar

/-- A raw ledger row as loaded (the `entity` column plays no role in any
computation downstream of loading). -/
structure LedgerRow where
  date : MD
  account : Chars
  currency : Chars
  amount : ℚ
deriving DecidableEq, Repr

/-- An FX rate row `{date, currency, rate_to_usd}`. -/
structure FxRow where
  date : MD
  currency : Chars
  rate : ℚ
deriving DecidableEq, Repr

/-- A USD-normalised row (output of `_to_usd` / of the merge step in
`FinanceTools._prepare_pl`). -/
structure UsdRow where
  date : MD
  account : Chars
  currency : Chars
  amount : ℚ
  rate : ℚ
  amount_usd : ℚ
deriving DecidableEq, Repr

def FxRow.sameKey (a b : FxRow) : Bool := a.date = b.date && a.currency = b.currency

/-- `fx.drop_duplicates(subset=["date","currency"], keep="last")` in `_load`:
a row is kept iff no later row shares its (date, currency). -/
def dedupLast : List FxRow → List FxRow
  | [] => []
  | r :: rs => if rs.any (FxRow.sameKey r) then dedupLast rs else r :: dedupLast rs

def keyMatches (d : MD) (c : Chars) (f : FxRow) : Bool := f.date = d && f.currency = c

/-- `pd.merge(df, fx, on=["date","currency"], how="left")` followed by
`rate_to_usd.fillna(1.0)` and `amount_usd = amount * rate_to_usd`: every left
row pairs with every matching right row, in right-table order; an unmatched
left row keeps a NaN rate, filled to 1.0. -/
def mergeToUsd (df : List LedgerRow) (fx : List FxRow) : List UsdRow :=
  (df.map fun r =>
    match fx.filter (keyMatches r.date r.currency) with
    | [] => [⟨r.date, r.account, r.currency, r.amount, 1, r.amount * 1⟩]
    | ms => ms.map fun f =>
        ⟨r.date, r.account, r.currency, r.amount, f.rate, r.amount * f.rate⟩).flatten

/-- `_to_usd` as called by `build_engine` in `src/agent/engine.py`, i.e. on
the FX table already deduplicated by `_load`. -/
def to_usd (df : List LedgerRow) (fx : List FxRow) : List UsdRow :=
  mergeToUsd df (dedupLast fx)

/-- The currency step of `FinanceTools._prepare_pl` (src/agent/tools.py):
the same left-merge, but against the raw FX table — upper-cased currencies,
no deduplication. -/
def prepare_pl_usd (df : List LedgerRow) (fx : List FxRow) : List UsdRow :=
  mergeToUsd (df.map fun r => ⟨r.date, r.account, upper r.currency, r.amount⟩)
    (fx.map fun f => ⟨f.date, upper f.currency, f.rate⟩)

/-- The last `rate_to_usd` listed in the FX table for a key — the
specification's last-write-wins rate — and 1.0 when the key is absent. -/
def lastRate (fx : List FxRow) (d : MD) (c : Chars) : ℚ :=
  match (fx.filter (keyMatches d c)).getLast? with
  | some f => f.rate
  | none => 1

/-! ## Aggregation engine (src/agent/engine.py `_build_pivots`,
src/agent/tools.py `_summarise_pl`) -/

/-- Month-start dates compare by year, then by month. -/
def MD.le (a b : MD) : Bool :=
  decide (a.year < b.year) || (decide (a.year = b.year) && decide (a.month ≤ b.month))

inductive Kind
  | Revenue | Cogs | Opex | Other
deriving DecidableEq, Repr

/-- `classify` in `_build_pivots`: case-insensitive account-name test, Opex
first, then Cogs, then Revenue, else Other. -/
def classify (account : Chars) : Kind :=
  let lowered := lower account
  if isPre (kw ("opex")) lowered then Kind.Opex
  else if isPre (kw ("cogs")) lowered then Kind.Cogs
  else if isPre (kw ("revenue")) lowered then Kind.Revenue
  else Kind.Other

/-- Insert a date into an ascending duplicate-free list. -/
def insertDate (d : MD) : List MD → List MD
  | [] => [d]
  | x :: xs =>
    if d = x then x :: xs
    else if MD.le d x then d :: x :: xs
    else x :: insertDate d xs

/-- The sorted distinct dates of the USD rows: the pivot's index. -/
def pivotDates (df : List UsdRow) : List MD :=
  (df.map fun r => r.date).foldr insertDate []

/-- One cell of `pivot_table(index="date", columns="Kind",
values="amount_usd", aggfunc="sum")` after `fillna(0.0)` and the
missing-column default 0.0. -/
def kindSum (df : List UsdRow) (d : MD) (k : Kind) : ℚ :=
  ((df.filter fun r => decide (r.date = d) && decide (classify r.account = k)).map
    fun r => r.amount_usd).sum

/-- One row of the enriched monthly aggregate: the percentage columns are
`none` exactly where `np.where(Revenue != 0, ..., np.nan)` places a NaN. -/
structure AggRow where
  date : MD
  revenue : ℚ
  cogs : ℚ
  opex : ℚ
  grossProfit : ℚ
  grossMarginPct : Option ℚ
  ebitda : ℚ
  ebitdaPct : Option ℚ
deriving DecidableEq, Repr

/-- `enrich` applied at one month of the engine pivot. -/
def enrichRow (df : List UsdRow) (d : MD) : AggRow :=
  let revenue := kindSum df d Kind.Revenue
  let cogs := kindSum df d Kind.Cogs
  let opex := kindSum df d Kind.Opex
  let grossProfit := revenue - cogs
  let ebitda := revenue - cogs - opex
  ⟨d, revenue, cogs, opex, grossProfit,
    if revenue ≠ 0 then some (grossProfit / revenue * 100) else none,
    ebitda,
    if revenue ≠ 0 then some (ebitda / revenue * 100) else none⟩

/-- `_build_pivots`'s enriched pivot for one scenario: one row per distinct
month of the input, index ascending. -/
def build_pivot (df : List UsdRow) : List AggRow :=
  (pivotDates df).map (enrichRow df)

/-- Text before the first colon (pandas `str.split(":").str[0]`). -/
def beforeColon : Chars → Chars
  | [] => []
  | c :: rest => if c = ':' then [] else c :: beforeColon rest

/-- Python `str.strip` over ASCII whitespace. -/
def strip (s : Chars) : Chars :=
  ((s.dropWhile isSpaceC).reverse.dropWhile isSpaceC).reverse

/-- `account_group` as `FinanceTools._prepare_pl` derives it: the stripped
account text before the first colon. -/
def account_group (account : Chars) : Chars := beforeColon (strip account)

/-- One cell of `_summarise_pl`'s pivot: groups name the columns, so the
Revenue/COGS/Opex columns match the group text case-sensitively. -/
def groupSum (df : List UsdRow) (d : MD) (g : Chars) : ℚ :=
  ((df.filter fun r => decide (r.date = d) && decide (account_group r.account = g)).map
    fun r => r.amount_usd).sum

/-- One row of `FinanceTools._summarise_pl`'s summary table. -/
def summariseRow (df : List UsdRow) (d : MD) : AggRow :=
  let revenue := groupSum df d (kw ("Revenue"))
  let cogs := groupSum df d (kw ("COGS"))
  let opex := groupSum df d (kw ("Opex"))
  let grossProfit := revenue - cogs
  let ebitda := revenue - cogs - opex
  ⟨d, revenue, cogs, opex, grossProfit,
    if revenue ≠ 0 then some (grossProfit / revenue * 100) else none,
    ebitda,
    if revenue ≠ 0 then some (ebitda / revenue * 100) else none⟩

/-- `FinanceTools._summarise_pl`. -/
def summarise_pl (df : List UsdRow) : List AggRow :=
  (pivotDates df).map (summariseRow df)

/-! ## Opex category breakdown (src/agent/engine.py `_opex_breakdown`,
src/agent/tools.py `_opex_breakdown` / `opex_breakdown`) -/

/-- The text after the first colon, when there is one
(`str.split(":", n=1).str[1]`, which is NaN when the account has no colon). -/
def afterColon : Chars → Option Chars
  | [] => none
  | c :: rest => if c = ':' then some rest else afterColon rest

/-- The `category` column of the engine's `_opex_breakdown`: text after the
first colon, `fillna("Other")`, then `str.strip()`. -/
def category (account : Chars) : Chars :=
  match afterColon account with
  | some rest => strip rest
  | none => strip (kw ("Other"))

/-- The month's Opex rows:
`df[(df["date"] == month_dt) & (df["account"].str.lower().str.startswith("opex"))]`. -/
def opexRowsAt (df : List UsdRow) (m : MD) : List UsdRow :=
  df.filter fun r => decide (r.date = m) && isPre (kw ("opex")) (lower r.account)

/-- Insertion into a list sorted descending by amount (embedding the final
`sort_values("amount_usd", ascending=False)`; pandas leaves the order of
ties unspecified, as does the claim). -/
def insertDesc (p : Chars × ℚ) : List (Chars × ℚ) → List (Chars × ℚ)
  | [] => [p]
  | x :: xs => if decide (x.2 ≤ p.2) then p :: x :: xs else x :: insertDesc p xs

def sortDesc (l : List (Chars × ℚ)) : List (Chars × ℚ) := l.foldr insertDesc []

/-- `_opex_breakdown` of src/agent/engine.py: the month's Opex rows, a
category per row, grouped and summed by category, sorted descending by
amount. -/
def opex_breakdown (df : List UsdRow) (m : MD) : List (Chars × ℚ) :=
  let rows := opexRowsAt df m
  let cats := (rows.map fun r => category r.account).dedup
  sortDesc (cats.map fun c =>
    (c, ((rows.filter fun r => decide (category r.account = c)).map
          fun r => r.amount_usd).sum))

/-- `account_category` as `FinanceTools._prepare_pl` derives it: the text
after the first colon when the account's group is "opex" case-insensitively
and a colon exists — NOT whitespace-stripped and with no "Other" default —
otherwise the group itself. -/
def account_category (account : Chars) : Chars :=
  let a := strip account
  let g := beforeColon a
  match afterColon a with
  | some rest => if lower g = kw ("opex") then rest else g
  | none => g

/-- The dates having at least one Opex-group row: the index of the
`_opex_breakdown` pivot of src/agent/tools.py. -/
def toolsOpexDates (df : List UsdRow) : List MD :=
  pivotDates (df.filter fun r => decide (lower (account_group r.account) = kw ("opex")))

/-- Every category appearing among a table's Opex-group rows at any date:
the columns of that pivot (`fillna(0.0)` makes each column present at every
indexed date). -/
def toolsOpexCats (df : List UsdRow) : List Chars :=
  ((df.filter fun r => decide (lower (account_group r.account) = kw ("opex"))).map
    fun r => account_category r.account).dedup

/-- One cell of that pivot. -/
def toolsOpexCell (df : List UsdRow) (m : MD) (c : Chars) : ℚ :=
  ((df.filter fun r => decide (r.date = m)
      && decide (lower (account_group r.account) = kw ("opex"))
      && decide (account_category r.account = c)).map fun r => r.amount_usd).sum

/-- Lexicographic (code-point) order on strings, as Python `sorted` uses. -/
def lexLe : Chars → Chars → Bool
  | [], _ => true
  | _ :: _, [] => false
  | a :: as, b :: bs => if a = b then lexLe as bs else decide (a < b)

def insertLex (c : Chars) : List Chars → List Chars
  | [] => [c]
  | x :: xs => if lexLe c x then c :: x :: xs else x :: insertLex c xs

def sortLex (l : List Chars) : List Chars := l.foldr insertLex []

/-- `FinanceTools.opex_breakdown(month)`: one output row per category in the
sorted union of the actual and budget pivot columns (each side contributing
only when the month is in its pivot's index), valued by the Actual and
Budget cells, 0.0 where absent.  The result is ordered by category name,
not by amount. -/
def tools_opex_breakdown (act bud : List UsdRow) (m : MD) : List (Chars × ℚ × ℚ) :=
  let actIdx := decide (m ∈ toolsOpexDates act)
  let budIdx := decide (m ∈ toolsOpexDates bud)
  let actCats := if actIdx then toolsOpexCats act else []
  let budCats := if budIdx then toolsOpexCats bud else []
  let cats := sortLex (actCats ++ budCats).dedup
  cats.map fun c =>
    (c,
      (if actIdx && decide (c ∈ toolsOpexCats act) then toolsOpexCell act m c else 0,
       if budIdx && decide (c ∈ toolsOpexCats bud) then toolsOpexCell bud m c else 0))

/-! ## Cash runway (src/agent/engine.py `_cash_runway_months`,
src/agent/tools.py `FinanceTools.cash_runway`) -/

/-- A cash balance row `{date, cash_balance}`. -/
structure CashRow where
  date : MD
  cash_balance : ℚ
deriving DecidableEq, Repr

/-- Runway values: the distinguishable infinite value (`float("inf")` /
`np.inf`), a finite number of months, or the NaN of degenerate inputs. -/
inductive Runway
  | inf
  | months (m : ℚ)
  | nan
deriving DecidableEq, Repr

/-- Python `series.iloc[-n:]` / `.tail(n)` for n > 0: the last up-to-n
elements. -/
def lastN {α : Type} (n : ℕ) (l : List α) : List α := l.drop (l.length - n)

/-- The mean of a nonempty series (`Series.mean()`; the degenerate empty
mean, NaN in pandas, is handled separately by the callers below). -/
def mean (l : List ℚ) : ℚ := l.sum / l.length

/-- `cash_df.sort_values("date").iloc[-1]`: a stable sort followed by taking
the last row yields the last-listed row among those of maximal date. -/
def lastMaxCash (c : CashRow) (rest : List CashRow) : CashRow :=
  rest.foldl (fun acc r => if MD.le acc.date r.date then r else acc) c

/-- `_cash_runway_months` of src/agent/engine.py: the mean over the last
three aggregate rows of Opex + Cogs − Revenue; `float("inf")` when that mean
is ≤ 0, else latest cash / mean.  An empty cash table raises (`iloc[-1]`,
embedded as `Except.error`); an empty pivot makes the mean NaN, every
comparison with it false, and the division NaN. -/
def cash_runway_months (cash : List CashRow) (pivot : List AggRow) : Except Unit Runway :=
  match cash with
  | [] => Except.error ()
  | c :: rest =>
    match lastN 3 pivot with
    | [] => Except.ok Runway.nan
    | p :: ps =>
      let net_burn := mean ((p :: ps).map fun r => r.opex + r.cogs - r.revenue)
      let latest_cash := (lastMaxCash c rest).cash_balance
      if net_burn ≤ 0 then Except.ok Runway.inf
      else Except.ok (Runway.months (latest_cash / net_burn))

/-- `FinanceTools.cash_runway` of src/agent/tools.py: NaN when either table
is empty; otherwise each month's burn is −EBITDA clipped below at 0
(`(-ebitda).clip(lower=0)`), averaged over the trailing window; infinite
when the average is ≤ 0, else latest cash / average.  (`dropna()` on the
EBITDA column is a no-op: the summary's EBITDA column is never NaN.) -/
def tools_cash_runway (cash : List CashRow) (summary : List AggRow)
    (trailing_months : ℕ) : Runway :=
  match cash with
  | [] => Runway.nan
  | c :: rest =>
    if summary.isEmpty then Runway.nan
    else
      let latest_cash := (lastMaxCash c rest).cash_balance
      let ebitda := summary.map fun r => r.ebitda
      let ebitda2 := if 0 < trailing_months then lastN trailing_months ebitda else ebitda
      let net_burn := ebitda2.map fun e => max (-e) 0
      let avg_burn := if net_burn.isEmpty then 0 else mean net_burn
      if avg_burn ≤ 0 then Runway.inf
      else Runway.months (latest_cash / avg_burn)

/-! ## The engine's question helpers (src/agent/engine.py, identical in
src/engine.py) -/

/-- `_is_trend`'s keyword list. -/
def engineTrendWords : List Chars :=
  [ kw ("trend"), kw ("trends"), kw ("over time"), kw ("by month"), kw ("chart")
  , kw ("plot"), kw ("line"), kw ("graph"), kw ("show") ]

/-- `_is_trend`. -/
def is_trend (q : Chars) : Bool := engineTrendWords.any fun w => hasSub w (lower q)

/-- `_vs_budget`. -/
def vs_budget (q : Chars) : Bool :=
  [kw ("vs budget"), kw ("versus budget"), kw ("variance"), kw ("budget")].any
    fun w => hasSub w (lower q)

/-- The engine month regex
`(jan(uary)?|feb(ruary)?|...|sep(t)?(ember)?|...)\s*\d{4}` (re.I): for each
month, its expansions in the backtracking order of the optional groups, and
whether `dateparser` parses the expansion (it raises on the spurious
"sepember", which `_parse_month` catches, yielding no month). -/
def engineMonthTable : List (List (Chars × Bool) × ℕ) :=
  [ ([(kw ("january"), true), (kw ("jan"), true)], 1)
  , ([(kw ("february"), true), (kw ("feb"), true)], 2)
  , ([(kw ("march"), true), (kw ("mar"), true)], 3)
  , ([(kw ("april"), true), (kw ("apr"), true)], 4)
  , ([(kw ("may"), true)], 5)
  , ([(kw ("june"), true), (kw ("jun"), true)], 6)
  , ([(kw ("july"), true), (kw ("jul"), true)], 7)
  , ([(kw ("august"), true), (kw ("aug"), true)], 8)
  , ([(kw ("september"), true), (kw ("sept"), true), (kw ("sepember"), false),
      (kw ("sep"), true)], 9)
  , ([(kw ("october"), true), (kw ("oct"), true)], 10)
  , ([(kw ("november"), true), (kw ("nov"), true)], 11)
  , ([(kw ("december"), true), (kw ("dec"), true)], 12) ]

/-- After a month expansion: `\s*` then `\d{4}` (any four digits). -/
def digits4After (rest : Chars) : Option ℕ :=
  let r2 := rest.dropWhile isSpaceC
  let d4 := r2.take 4
  if d4.length = 4 && d4.all isDigitC then some (decimalVal d4) else none

/-- One attempt of the engine month regex at a fixed position.  Outer `none`:
no syntactic match, keep scanning; `some none`: matched text that
`_parse_month` fails to parse; `some (some d)`: a month-start date. -/
def matchEngineMonthAt (s : Chars) : Option (Option MD) :=
  let ls := lower s
  ((engineMonthTable.map fun entry =>
      (entry.1.filterMap fun exp =>
        if isPre exp.1 ls then
          match digits4After (ls.drop exp.1.length) with
          | some y => some (if exp.2 then some (⟨y, entry.2⟩ : MD) else none)
          | none => none
        else none).head?).filterMap fun o => o).head?

/-- The word class `\w` of `re`. -/
def isWordC (c : Char) : Bool := isLetterC c || isDigitC c || c = '_'

/-- One attempt of the engine ISO regex `\b(20\d{2})-(0[1-9]|1[0-2])\b` at a
fixed position; `prev` is the character just before the position. -/
def matchEngineIsoAt (prev : Option Char) (s : Chars) : Option MD :=
  let okPrev := match prev with
    | none => true
    | some c => !(isWordC c)
  if okPrev && (s.take 2) = kw ("20") && ((s.drop 2).take 2).length = 2
      && ((s.drop 2).take 2).all isDigitC && (s.drop 4).take 1 = kw ("-") then
    let mm := (s.drop 5).take 2
    let afterOk := match (s.drop 7).head? with
      | none => true
      | some c => !(isWordC c)
    if mm.length = 2 && mm.all isDigitC && 1 ≤ decimalVal mm && decimalVal mm ≤ 12
        && afterOk then
      some ⟨decimalVal (s.take 4), decimalVal mm⟩
    else none
  else none

/-- `re.search` of the boundary-carrying ISO pattern. -/
def scanIso (prev : Option Char) : Chars → Option MD
  | [] => matchEngineIsoAt prev []
  | c :: rest =>
    match matchEngineIsoAt prev (c :: rest) with
    | some md => some md
    | none => scanIso (some c) rest

/-- `_extract_month` of the engines: the month-name pattern first (its match
is returned through `_parse_month` even when parsing fails, skipping the ISO
pattern), else the ISO pattern. -/
def extract_month (q : Chars) : Option MD :=
  match scanFor matchEngineMonthAt q with
  | some r => r
  | none => scanIso none q

/-- One attempt of `re.search(r"last\s+(\d+)\s+month", ql)` at a position. -/
def matchLastNFlexAt (s : Chars) : Option ℕ :=
  if isPre (kw ("last")) s then
    let r1 := s.drop 4
    let sp1 := r1.takeWhile isSpaceC
    let r2 := r1.drop sp1.length
    let (v, n, r3) := readDigits r2
    let sp2 := r3.takeWhile isSpaceC
    let r4 := r3.drop sp2.length
    if 0 < sp1.length && 0 < n && 0 < sp2.length && isPre (kw ("month")) r4 then some v
    else none
  else none

/-- The `last N month` window of the Gross Margin trend branch. -/
def gm_trend_lastN (ql : Chars) : Option ℕ := scanFor matchLastNFlexAt ql

/-! ## Answer formatting (the f-string formats of the answer texts) -/

/-- Digit grouping by thousands, on a reversed digit list. -/
def group3 : Chars → Chars
  | a :: b :: c :: d :: rest => a :: b :: c :: ',' :: group3 (d :: rest)
  | l => l

def natDigits (n : ℕ) : Chars := Nat.toDigits 10 n

def natCommas (n : ℕ) : Chars := (group3 (natDigits n).reverse).reverse

def intCommas (z : ℤ) : Chars :=
  if z < 0 then '-' :: natCommas z.natAbs else natCommas z.natAbs

/-- Round half to even, as Python's float formatting rounds. -/
def roundHalfEven (q : ℚ) : ℤ :=
  let f := ⌊q⌋
  let r := q - f
  if r < 1/2 then f
  else if 1/2 < r then f + 1
  else if f % 2 = 0 then f else f + 1

/-- `f"${x:,.0f}"` (without the `$`, applied by the callers). -/
def fmtMoney (q : ℚ) : Chars := '$' :: intCommas (roundHalfEven q)

/-- `f"{x:.1f}"`. -/
def fmt1 (q : ℚ) : Chars :=
  let n := roundHalfEven (q * 10)
  (if n < 0 then kw ("-") else kw (""))
    ++ natDigits (n.natAbs / 10) ++ kw (".") ++ natDigits (n.natAbs % 10)

/-- `f"{x:+.1f}"`. -/
def fmt1Signed (q : ℚ) : Chars :=
  let n := roundHalfEven (q * 10)
  (if n < 0 then kw ("-") else kw ("+"))
    ++ natDigits (n.natAbs / 10) ++ kw (".") ++ natDigits (n.natAbs % 10)

/-- `f"{x:.1f}"` where x may be NaN (Python prints "nan"). -/
def fmt1Opt : Option ℚ → Chars
  | some q => fmt1 q
  | none => kw ("nan")

/-- `f"{x:+.1f}"` where x may be NaN (Python prints "+nan"). -/
def fmt1SignedOpt : Option ℚ → Chars
  | some q => fmt1Signed q
  | none => kw ("+nan")

/-- `strftime("%b")`. -/
def monthName : ℕ → Chars
  | 1 => kw ("Jan")
  | 2 => kw ("Feb")
  | 3 => kw ("Mar")
  | 4 => kw ("Apr")
  | 5 => kw ("May")
  | 6 => kw ("Jun")
  | 7 => kw ("Jul")
  | 8 => kw ("Aug")
  | 9 => kw ("Sep")
  | 10 => kw ("Oct")
  | 11 => kw ("Nov")
  | 12 => kw ("Dec")
  | _ => kw ("???")

/-- `_month_label`: `strftime("%b %Y")`. -/
def month_label (d : MD) : Chars := monthName d.month ++ kw (" ") ++ natDigits d.year

/-! ## The agent engine's `answer` (src/agent/engine.py `build_engine`) -/

/-- A chart value of the agent engine (`_line_chart` / `_bar_chart`
figures, by their construction arguments; rendering effects are outside the
embedding). -/
inductive Chart
  | line (title ylabel series_label : Chars) (series : List (MD × ℚ))
      (compare : Option (List (MD × ℚ))) (compare_label : Chars)
  | bar (title ylabel : Chars) (data : List (Chars × ℚ))
deriving DecidableEq, Repr

/-- The dict returned by the agent engine's `answer`: a missing "table" key
and a None value are both `none`. -/
structure AnswerResult where
  text : Chars
  chart : Option Chart
  table : Option (List (Chars × ℚ))
deriving DecidableEq, Repr

/-- `pivot.loc[month, ...]` row lookup; a missing month raises `KeyError`. -/
def findRow (pv : List AggRow) (m : MD) : Except Unit AggRow :=
  match pv.find? fun r => decide (r.date = m) with
  | some r => Except.ok r
  | none => Except.error ()

def pivotIndex (aPv : List AggRow) : List MD := aPv.map fun r => r.date

/-- `index.max()` (`none` on an empty index, pandas' NaN). -/
def maxD : List MD → Option MD
  | [] => none
  | d :: rest => some (rest.foldl (fun a x => if MD.le a x then x else a) d)

/-- Month resolution of the agent `answer`
(`month_dt = _extract_month(q) or index.max()`, then the fallback
`if month_dt not in index: month_dt = index.max()`). -/
def resolveMonth (aPv : List AggRow) (q : Chars) : Option MD :=
  let m0 := match extract_month q with
    | some m => some m
    | none => maxD (pivotIndex aPv)
  match m0 with
  | none => none
  | some m => if decide (m ∈ pivotIndex aPv) then some m else maxD (pivotIndex aPv)

/-- `series.dropna()` over the Gross Margin % column. -/
def gmSeries (pv : List AggRow) : List (MD × ℚ) :=
  pv.filterMap fun r =>
    match r.grossMarginPct with
    | some v => some (r.date, v)
    | none => none

/-- `series.iloc[-n:]` for the regex-extracted n, which Python evaluates as
the whole series when n = 0 (`-0 == 0`). -/
def pyNegTail {α : Type} (n : ℕ) (l : List α) : List α :=
  if n = 0 then l else lastN n l

/-- The `# Cash runway` section of the agent `answer` (the chart is always
None there). -/
def runwayBranch (cash : List CashRow) (aPv : List AggRow) : Except Unit AnswerResult :=
  match cash_runway_months cash aPv with
  | Except.error e => Except.error e
  | Except.ok Runway.inf =>
    Except.ok ⟨kw ("Cash runway: ∞ months (no net burn over last 3 months)."), none, none⟩
  | Except.ok (Runway.months m) =>
    Except.ok ⟨kw ("Cash runway: ") ++ fmt1 m
      ++ kw (" months based on last 3 months\x27 average burn."), none, none⟩
  | Except.ok Runway.nan =>
    Except.ok ⟨kw ("Cash runway: nan months based on last 3 months\x27 average burn."),
      none, none⟩

/-- The `# Gross Margin %` section of the agent `answer`. -/
def gmBranch (aPv bPv : List AggRow) (q : Chars) (plotting : Bool) (mOpt : Option MD) :
    Except Unit AnswerResult :=
  let compare_budget := vs_budget q
  if is_trend q then
    let series0 := gmSeries aPv
    let bseries0 := gmSeries bPv
    let series := match gm_trend_lastN (lower q) with
      | some n => pyNegTail n series0
      | none => series0
    let bseries := match gm_trend_lastN (lower q) with
      | some n => pyNegTail n bseries0
      | none => bseries0
    let fig := if plotting && !series.isEmpty then
        some (Chart.line (kw ("Gross Margin % Trend")) (kw ("Gross Margin %"))
          (kw ("Actual GM%")) series
          (if compare_budget then some bseries else none) (kw ("Budget GM%")))
      else none
    Except.ok ⟨kw ("Displayed Gross Margin % trend")
      ++ (if compare_budget then kw (" vs Budget") else kw ("")), fig, none⟩
  else
    match mOpt with
    | none => Except.error ()
    | some m =>
      match findRow aPv m with
      | Except.error e => Except.error e
      | Except.ok arow =>
        match findRow bPv m with
        | Except.error e => Except.error e
        | Except.ok brow =>
          let actual := arow.grossMarginPct
          let budget_value := brow.grossMarginPct
          let variance := match actual, budget_value with
            | some a, some b => some (a - b)
            | _, _ => none
          Except.ok ⟨kw ("Gross Margin % — ") ++ month_label m
            ++ kw ("\nActual: ") ++ fmt1Opt actual ++ kw ("%")
            ++ kw ("\nBudget: ") ++ fmt1Opt budget_value ++ kw ("%")
            ++ kw ("\nVariance: ") ++ fmt1SignedOpt variance ++ kw (" pp"), none, none⟩

/-- The `# Opex breakdown` section of the agent `answer`.  When `plotting`
holds and the breakdown is nonempty, the source calls `_bar_chart`, which
ALWAYS raises: its `ax.tick_params(axis="x", rotation=45, ha="right")`
passes the keyword `ha`, which matplotlib's tick_params rejects with
ValueError.  So no figure value is ever produced on this branch; it raises
(`Except.error`) exactly when a chart would have been drawn. -/
def opexBranch (aUsd : List UsdRow) (plotting : Bool) (mOpt : Option MD) :
    Except Unit AnswerResult :=
  match mOpt with
  | none => Except.error ()
  | some m =>
    let breakdown := opex_breakdown aUsd m
    if plotting && !breakdown.isEmpty then
      Except.error ()
    else
      let total := if breakdown.isEmpty then 0 else (breakdown.map fun p => p.2).sum
      Except.ok ⟨kw ("Opex total — ") ++ month_label m ++ kw (": $")
          ++ intCommas (roundHalfEven total), none,
        if breakdown.isEmpty then none else some breakdown⟩

/-- The `# EBITDA` section of the agent `answer`. -/
def ebitdaBranch (aPv bPv : List AggRow) (q : Chars) (plotting : Bool) (mOpt : Option MD) :
    Except Unit AnswerResult :=
  let compare_budget := vs_budget q
  if is_trend q then
    let fig := if plotting then
        some (Chart.line (kw ("EBITDA Trend")) (kw ("USD")) (kw ("Actual EBITDA"))
          (aPv.map fun r => (r.date, r.ebitda))
          (if compare_budget then some (bPv.map fun r => (r.date, r.ebitda)) else none)
          (kw ("Budget EBITDA")))
      else none
    Except.ok ⟨kw ("Displayed EBITDA trend")
      ++ (if compare_budget then kw (" vs Budget") else kw ("")), fig, none⟩
  else
    match mOpt with
    | none => Except.error ()
    | some m =>
      match findRow aPv m with
      | Except.error e => Except.error e
      | Except.ok arow =>
        match findRow bPv m with
        | Except.error e => Except.error e
        | Except.ok brow =>
          let actual_value := arow.ebitda
          let budget_value := brow.ebitda
          let variance := actual_value - budget_value
          let variance_pct := if budget_value = 0 then none
            else some (variance / budget_value * 100)
          Except.ok ⟨kw ("EBITDA — ") ++ month_label m
            ++ kw ("\nActual: ") ++ fmtMoney actual_value
            ++ kw ("\nBudget: ") ++ fmtMoney budget_value
            ++ kw ("\nVariance: ") ++ fmtMoney variance ++ kw (" (")
            ++ fmt1SignedOpt variance_pct ++ kw ("%)"), none, none⟩

/-- The final `# Revenue` section of the agent `answer` (trend or point). -/
def revenueBranch (aPv bPv : List AggRow) (q : Chars) (plotting : Bool) (mOpt : Option MD) :
    Except Unit AnswerResult :=
  let compare_budget := vs_budget q
  if is_trend q then
    let fig := if plotting then
        some (Chart.line (kw ("Revenue Trend")) (kw ("USD")) (kw ("Actual Revenue"))
          (aPv.map fun r => (r.date, r.revenue))
          (if compare_budget then some (bPv.map fun r => (r.date, r.revenue)) else none)
          (kw ("Budget Revenue")))
      else none
    Except.ok ⟨kw ("Displayed Revenue trend")
      ++ (if compare_budget then kw (" vs Budget") else kw ("")), fig, none⟩
  else
    match mOpt with
    | none => Except.error ()
    | some m =>
      match findRow aPv m with
      | Except.error e => Except.error e
      | Except.ok arow =>
        match findRow bPv m with
        | Except.error e => Except.error e
        | Except.ok brow =>
          let actual_value := arow.revenue
          let budget_value := brow.revenue
          let variance := actual_value - budget_value
          let variance_pct := if budget_value = 0 then none
            else some (variance / budget_value * 100)
          Except.ok ⟨kw ("Revenue — ") ++ month_label m
            ++ kw ("\nActual: ") ++ fmtMoney actual_value
            ++ kw ("\nBudget: ") ++ fmtMoney budget_value
            ++ kw ("\nVariance: ") ++ fmtMoney variance ++ kw (" (")
            ++ fmt1SignedOpt variance_pct ++ kw ("%)"), none, none⟩

/-- The body of the agent `answer` given the resolved month: its branch
cascade, section by section.  Exception paths (`.loc` misses, `iloc[-1]` on
empty cash, `strftime` on a NaN month) are `Except.error`. -/
def answerCore (aPv bPv : List AggRow) (aUsd : List UsdRow) (cash : List CashRow)
    (q : Chars) (plotting : Bool) (mOpt : Option MD) : Except Unit AnswerResult :=
  let ql := lower q
  if hasSub (kw ("cash runway")) ql
      || (hasSub (kw ("cash")) ql && hasSub (kw ("runway")) ql) then
    runwayBranch cash aPv
  else if hasSub (kw ("gross margin")) ql then
    gmBranch aPv bPv q plotting mOpt
  else if hasSub (kw ("opex")) ql
      && (hasSub (kw ("break down")) ql || hasSub (kw ("breakdown")) ql
          || hasSub (kw ("by category")) ql) then
    opexBranch aUsd plotting mOpt
  else if hasSub (kw ("ebitda")) ql then
    ebitdaBranch aPv bPv q plotting mOpt
  else
    revenueBranch aPv bPv q plotting mOpt

/-- The `answer` closure of `build_engine` in src/agent/engine.py. -/
def answer (aPv bPv : List AggRow) (aUsd : List UsdRow) (cash : List CashRow)
    (q : Chars) (plotting : Bool) : Except Unit AnswerResult :=
  answerCore aPv bPv aUsd cash q plotting (resolveMonth aPv q)

/-- The chart-erasing projection `plotting=false` is claimed to amount to. -/
def eraseChart (r : AnswerResult) : AnswerResult := ⟨r.text, none, r.table⟩

/-! ## The flat near-duplicate engine (src/engine.py `build_engine`) -/

/-- The dict returned by src/engine.py's `answer`: its "chart" value is the
string "rendered" or None (figures are drawn by side effect only, which is
outside the embedding; the returned value never holds a figure). -/
structure FlatResult where
  text : Chars
  chart : Option Chars
  table : Option (List (Chars × ℚ))
deriving DecidableEq, Repr

/-- The `answer` closure of `build_engine` in src/engine.py.  Its month is
`_extract_month(q) or index.max()` with NO membership fallback; its trend
branches return `"chart": "rendered"` regardless of `plotting`; the opex
branch always returns the breakdown table and marks the chart "rendered"
iff the breakdown is nonempty.  No output field depends on `plotting`
(plotting only suppresses the matplotlib side effects). -/
def answerFlat (aPv bPv : List AggRow) (aUsd : List UsdRow) (cash : List CashRow)
    (q : Chars) (plotting : Bool) : Except Unit FlatResult :=
  let mOpt := match extract_month q with
    | some m => some m
    | none => maxD (pivotIndex aPv)
  let trend := is_trend q
  let compare := vs_budget q
  let ql := lower q
  if hasSub (kw ("cash runway")) ql
      || (hasSub (kw ("cash")) ql && hasSub (kw ("runway")) ql) then
    match cash_runway_months cash aPv with
    | Except.error e => Except.error e
    | Except.ok Runway.inf =>
      Except.ok ⟨kw ("Cash runway: ∞ months (no net burn over last 3 months)."), none, none⟩
    | Except.ok (Runway.months m) =>
      Except.ok ⟨kw ("Cash runway: ") ++ fmt1 m
        ++ kw (" months based on last 3 months\x27 average burn."), none, none⟩
    | Except.ok Runway.nan =>
      Except.ok ⟨kw ("Cash runway: nan months based on last 3 months\x27 average burn."),
        none, none⟩
  else if hasSub (kw ("gross margin")) ql then
    if trend then
      Except.ok ⟨kw ("Displayed Gross Margin % trend")
        ++ (if compare then kw (" vs Budget") else kw ("")), some (kw ("rendered")), none⟩
    else
      match mOpt with
      | none => Except.error ()
      | some m =>
        match findRow aPv m with
        | Except.error e => Except.error e
        | Except.ok arow =>
          match findRow bPv m with
          | Except.error e => Except.error e
          | Except.ok brow =>
            let act := arow.grossMarginPct
            let bud := brow.grossMarginPct
            let var := match act, bud with
              | some a, some b => some (a - b)
              | _, _ => none
            Except.ok ⟨kw ("Gross Margin % — ") ++ month_label m
              ++ kw ("\nActual: ") ++ fmt1Opt act ++ kw ("%")
              ++ kw ("\nBudget: ") ++ fmt1Opt bud ++ kw ("%")
              ++ kw ("\nVariance: ") ++ fmt1SignedOpt var ++ kw (" pp"), none, none⟩
  else if hasSub (kw ("opex")) ql
      && (hasSub (kw ("break down")) ql || hasSub (kw ("breakdown")) ql
          || hasSub (kw ("by category")) ql) then
    match mOpt with
    | none => Except.error ()
    | some m =>
      let br := opex_breakdown aUsd m
      let total := if br.isEmpty then 0 else (br.map fun p => p.2).sum
      Except.ok ⟨kw ("Opex total — ") ++ month_label m ++ kw (": $")
          ++ intCommas (roundHalfEven total),
        if br.isEmpty then none else some (kw ("rendered")), some br⟩
  else if hasSub (kw ("ebitda")) ql then
    if trend then
      Except.ok ⟨kw ("Displayed EBITDA trend")
        ++ (if compare then kw (" vs Budget") else kw ("")), some (kw ("rendered")), none⟩
    else
      match mOpt with
      | none => Except.error ()
      | some m =>
        match findRow aPv m with
        | Except.error e => Except.error e
        | Except.ok arow =>
          match findRow bPv m with
          | Except.error e => Except.error e
          | Except.ok brow =>
            let act := arow.ebitda
            let bud := brow.ebitda
            let var := act - bud
            let var_pct := if bud = 0 then none else some (var / bud * 100)
            Except.ok ⟨kw ("EBITDA — ") ++ month_label m
              ++ kw ("\nActual: ") ++ fmtMoney act
              ++ kw ("\nBudget: ") ++ fmtMoney bud
              ++ kw ("\nVariance: ") ++ fmtMoney var ++ kw (" (")
              ++ fmt1SignedOpt var_pct ++ kw ("%)"), none, none⟩
  else if trend then
    Except.ok ⟨kw ("Displayed Revenue trend")
      ++ (if compare then kw (" vs Budget") else kw ("")), some (kw ("rendered")), none⟩
  else
    match mOpt with
    | none => Except.error ()
    | some m =>
      match findRow aPv m with
      | Except.error e => Except.error e
      | Except.ok arow =>
        match findRow bPv m with
        | Except.error e => Except.error e
        | Except.ok brow =>
          let act := arow.revenue
          let bud := brow.revenue
          let var := act - bud
          let var_pct := if bud = 0 then none else some (var / bud * 100)
          Except.ok ⟨kw ("Revenue — ") ++ month_label m
            ++ kw ("\nActual: ") ++ fmtMoney act
            ++ kw ("\nBudget: ") ++ fmtMoney bud
            ++ kw ("\nVariance: ") ++ fmtMoney var ++ kw (" (")
            ++ fmt1SignedOpt var_pct ++ kw ("%)"), none, none⟩

end CFO

namespace CFO

/-! ## Theorems (planner) -/

theorem hasSub_trans_runway {q : Chars} (h : hasSub (kw ("cash runway")) q = true) :
    hasSub (kw ("runway")) q = true := by
  have h1 : kw ("runway") <:+: kw ("cash runway") := by decide
  have h2 : kw ("cash runway") <:+: q := by
    simpa [hasSub, decide_eq_true_eq] using h
  simpa [hasSub, decide_eq_true_eq] using h1.trans h2

theorem hasSub_cash_runway_false {q : Chars} (hr : hasSub (kw ("runway")) q = false) :
    hasSub (kw ("cash runway")) q = false := by
  cases hcc : hasSub (kw ("cash runway")) q
  · rfl
  · rw [hasSub_trans_runway hcc] at hr
    exact Bool.noConfusion hr

/-- C3 counterexample: "how long is our runway" contains neither the phrase
"cash runway" nor the word "cash", so the claimed condition is false, yet
`Planner.parse` classifies it as `cash_runway` (its source tests
`"cash runway" in ql or "runway" in ql`). -/
theorem planner_runway_counterexample :
    Planner.parse (kw ("how long is our runway"))
        = Except.ok ⟨Intent.cash_runway, none, none, none, false⟩
      ∧ claimRunwayCond (kw ("how long is our runway")) = false := by
  exact ⟨by decide, by decide⟩

/-- C3 (amended): `Planner.parse` returns the `cash_runway` plan if and only
if the lower-cased text contains "runway" (the "cash runway" disjunct in the
source is subsumed by it, and no co-occurring "cash" is required); the check
is still evaluated first, before any metric/month/trend/breakdown keyword —
in particular before the month extraction that can raise. -/
theorem planner_runway_iff_amended (q : Chars) :
    Planner.parse q = Except.ok ⟨Intent.cash_runway, none, none, none, false⟩
      ↔ hasSub (kw ("runway")) (lower q) = true := by
  cases hr : hasSub (kw ("runway")) (lower q)
  · have hc := hasSub_cash_runway_false hr
    unfold Planner.parse
    simp only [hc, hr, Bool.or_self, if_false, Bool.false_eq_true]
    constructor
    · intro h
      cases hd : detect_month q with
      | error e =>
        rw [hd] at h
        exact Except.noConfusion h
      | ok mo =>
        rw [hd] at h
        split at h
        · exact Except.noConfusion h
        · split at h
          · simp at h
          · split at h <;> simp at h
    · intro h
      exact h.elim
  · unfold Planner.parse
    simp [hr]

/-- C5 counterexample: "opex by category" satisfies the claimed trigger
("by category") and is not runway-classified, yet `Planner.parse` returns a
`point` plan — its source only tests "break down" and "breakdown", omitting
"by category".  Moreover, on "break down opex maybe 2025" — also covered by
the claim — the planner does not return a breakdown plan at all: the month
regex matches "maybe 2025" and the uncaught `dateparser.parse` failure
escapes `Planner.parse`. -/
theorem breakdown_by_category_counterexample :
    claimBreakdownCond (kw ("opex by category")) = true
      ∧ Planner.parse (kw ("opex by category"))
          = Except.ok ⟨Intent.point, some (kw ("opex")), none, none, false⟩
      ∧ claimBreakdownCond (kw ("break down opex maybe 2025")) = true
      ∧ Planner.parse (kw ("break down opex maybe 2025")) = Except.error () := by
  exact ⟨by decide, by decide, by decide, by decide⟩

/-- C5 (amended): for every question not containing "runway" (hence not
runway-classified), if its lower-cased text contains "break down" or
"breakdown" — but not merely "by category" — and the month extraction does
not raise (its uncaught `dateparser` failure on a regex-matched non-month
word such as "maybe 2025" escapes the parse), the planner returns intent
`breakdown` with the metric forced to opex (month and budget flag still
extracted, trailing-months not set). -/
theorem planner_breakdown_amended (q : Chars) (mo : Option MD)
    (hr : hasSub (kw ("runway")) (lower q) = false)
    (hb : (hasSub (kw ("break down")) (lower q)
            || hasSub (kw ("breakdown")) (lower q)) = true)
    (hm : detect_month q = Except.ok mo) :
    Planner.parse q =
      Except.ok ⟨Intent.breakdown, some (kw ("opex")), mo, none,
        detect_vs_budget (lower q)⟩ := by
  have hc := hasSub_cash_runway_false hr
  unfold Planner.parse
  simp [hc, hr, hb, hm]

/-- Witness for C5's amended theorem at the concrete question "break down opex". -/
theorem planner_breakdown_amended_witness :
    Planner.parse (kw ("break down opex")) =
      Except.ok ⟨Intent.breakdown, some (kw ("opex")), none, none, false⟩ :=
  (planner_breakdown_amended (kw ("break down opex")) none (by decide) (by decide)
    (by decide)).trans (by decide)

/-- C9 (confirmed): on the exact text "What was June 2025 revenue vs budget?"
the planner yields intent point, metric revenue, month 2025-06-01 and
compare_budget true. -/
theorem planner_june_revenue_point :
    Planner.parse (kw ("What was June 2025 revenue vs budget?")) =
      Except.ok ⟨Intent.point, some (kw ("revenue")), some ⟨2025, 6⟩, none, true⟩ := by
  decide

/-! ## Theorems (currency normalisation) -/

theorem filter_dedupLast (fx : List FxRow) (d : MD) (c : Chars) :
    (dedupLast fx).filter (keyMatches d c)
      = ((fx.filter (keyMatches d c)).getLast?).toList := by
  induction fx with
  | nil => rfl
  | cons r rs ih =>
    by_cases hk : keyMatches d c r = true
    · have hdc : r.date = d ∧ r.currency = c := by
        simpa [keyMatches, Bool.and_eq_true, decide_eq_true_eq] using hk
      have hpred : FxRow.sameKey r = keyMatches d c := by
        funext x
        have e1 : (decide (r.date = x.date)) = (decide (x.date = d)) := by
          rw [hdc.1]; exact decide_eq_decide.mpr eq_comm
        have e2 : (decide (r.currency = x.currency)) = (decide (x.currency = c)) := by
          rw [hdc.2]; exact decide_eq_decide.mpr eq_comm
        simp [FxRow.sameKey, keyMatches, e1, e2]
      unfold dedupLast
      rw [hpred]
      by_cases ha : rs.any (keyMatches d c) = true
      · rw [if_pos ha, ih, List.filter_cons_of_pos hk]
        have hne : rs.filter (keyMatches d c) ≠ [] := by
          rcases List.any_eq_true.mp ha with ⟨x, hx, hpx⟩
          intro h0
          have hall := List.filter_eq_nil_iff.mp h0 x hx
          simp [hpx] at hall
        cases hf : rs.filter (keyMatches d c) with
        | nil => exact absurd hf hne
        | cons y ys => simp
      · rw [if_neg ha, List.filter_cons_of_pos hk]
        have hf : rs.filter (keyMatches d c) = [] := by
          cases hf : rs.filter (keyMatches d c) with
          | nil => rfl
          | cons y ys =>
            have hy := List.mem_filter.mp (hf ▸ List.mem_cons_self y ys)
            exact absurd (List.any_eq_true.mpr ⟨y, hy.1, hy.2⟩) ha
        simp [List.filter_cons_of_pos hk, hf, ih]
    · unfold dedupLast
      by_cases ha : rs.any (FxRow.sameKey r) = true
      · rw [if_pos ha, ih, List.filter_cons_of_neg (by simpa using hk)]
      · rw [if_neg ha, List.filter_cons_of_neg (by simpa using hk),
          List.filter_cons_of_neg (by simpa using hk), ih]

/-- C4 (amended): the engine path (`_load` deduplicates FX last-write-wins,
then `_to_usd` left-merges) yields exactly one USD row per ledger row, with
the rate equal to the last `rate_to_usd` listed for that row's
(date, currency), defaulting to 1.0; `FinanceTools._prepare_pl`, however,
merges against the raw FX table without deduplication, so a repeated
(date, currency) pair duplicates the matching ledger rows. -/
theorem to_usd_last_write_wins_amended (df : List LedgerRow) (fx : List FxRow) :
    to_usd df fx = df.map fun r =>
      ⟨r.date, r.account, r.currency, r.amount, lastRate fx r.date r.currency,
        r.amount * lastRate fx r.date r.currency⟩ := by
  induction df with
  | nil => rfl
  | cons r rs ih =>
    have hstep : to_usd (r :: rs) fx
        = (match (dedupLast fx).filter (keyMatches r.date r.currency) with
           | [] => [⟨r.date, r.account, r.currency, r.amount, 1, r.amount * 1⟩]
           | ms => ms.map fun f =>
               ⟨r.date, r.account, r.currency, r.amount, f.rate, r.amount * f.rate⟩)
          ++ to_usd rs fx := by
      simp [to_usd, mergeToUsd]
    rw [hstep, ih, filter_dedupLast]
    cases hl : (fx.filter (keyMatches r.date r.currency)).getLast? with
    | none =>
      have hr1 : lastRate fx r.date r.currency = 1 := by unfold lastRate; rw [hl]
      simp [hr1]
    | some f =>
      have hrf : lastRate fx r.date r.currency = f.rate := by unfold lastRate; rw [hl]
      simp [hrf]

def ledgerEx : List LedgerRow := [⟨⟨2025, 6⟩, kw ("Revenue:Sales"), kw ("EUR"), 10⟩]

def fxDupEx : List FxRow :=
  [⟨⟨2025, 6⟩, kw ("EUR"), 2⟩, ⟨⟨2025, 6⟩, kw ("EUR"), 3⟩]

/-- C4 counterexample: with the FX file repeating (2025-06, EUR),
`FinanceTools._prepare_pl` joins the single ledger row to BOTH rates,
producing two USD-converted rows (amounts 20 and 30) for one input row. -/
theorem fx_duplicate_rows_counterexample :
    ledgerEx.length = 1 ∧ (prepare_pl_usd ledgerEx fxDupEx).length = 2
      ∧ (prepare_pl_usd ledgerEx fxDupEx).map (fun r => r.rate) = [2, 3] := by
  exact ⟨by decide, by decide, by decide⟩

/-! ## Theorems (monthly aggregate percentages) -/

/-- C2 (confirmed): in every row of the monthly aggregate — the engine's
enriched pivot as well as `FinanceTools`' summary, for any scenario's rows —
a zero Revenue makes Gross Margin % and EBITDA % the undefined marker
(`none`, embedding NaN), never a division by zero and never 0. -/
theorem pct_undefined_when_revenue_zero (df : List UsdRow) :
    (∀ row ∈ build_pivot df, row.revenue = 0 →
        row.grossMarginPct = none ∧ row.ebitdaPct = none)
      ∧ (∀ row ∈ summarise_pl df, row.revenue = 0 →
        row.grossMarginPct = none ∧ row.ebitdaPct = none) := by
  constructor
  · intro row hrow h0
    rcases List.mem_map.mp hrow with ⟨d, _, rfl⟩
    simp only [enrichRow] at h0 ⊢
    simp [h0]
  · intro row hrow h0
    rcases List.mem_map.mp hrow with ⟨d, _, rfl⟩
    simp only [summariseRow] at h0 ⊢
    simp [h0]

def dfZeroRevEx : List UsdRow := [⟨⟨2025, 1⟩, kw ("Opex:Ads"), kw ("USD"), 50, 1, 50⟩]

/-- Witness for C2 at a concrete table whose single month has zero revenue. -/
theorem pct_undefined_when_revenue_zero_witness :
    (enrichRow dfZeroRevEx ⟨2025, 1⟩).grossMarginPct = none
      ∧ (enrichRow dfZeroRevEx ⟨2025, 1⟩).ebitdaPct = none :=
  (pct_undefined_when_revenue_zero dfZeroRevEx).1 (enrichRow dfZeroRevEx ⟨2025, 1⟩)
    (by simp [build_pivot, pivotDates, dfZeroRevEx, insertDate]) (by rfl)

/-! ## Theorems (opex breakdown) -/

theorem insertDesc_perm (p : Chars × ℚ) (l : List (Chars × ℚ)) :
    (insertDesc p l).Perm (p :: l) := by
  induction l with
  | nil => exact List.Perm.refl _
  | cons x xs ih =>
    unfold insertDesc
    by_cases h : decide (x.2 ≤ p.2) = true
    · rw [if_pos h]
    · rw [if_neg h]
      exact (ih.cons x).trans (List.Perm.swap p x xs)

theorem sortDesc_perm (l : List (Chars × ℚ)) : (sortDesc l).Perm l := by
  induction l with
  | nil => exact List.Perm.refl _
  | cons x xs ih => exact (insertDesc_perm x (sortDesc xs)).trans (ih.cons x)

theorem insertDesc_sorted (p : Chars × ℚ) (l : List (Chars × ℚ))
    (h : l.Pairwise fun a b => b.2 ≤ a.2) :
    (insertDesc p l).Pairwise fun a b => b.2 ≤ a.2 := by
  induction l with
  | nil => simp [insertDesc]
  | cons x xs ih =>
    rcases List.pairwise_cons.mp h with ⟨hx, hxs⟩
    unfold insertDesc
    by_cases hle : decide (x.2 ≤ p.2) = true
    · rw [if_pos hle]
      refine List.pairwise_cons.mpr ⟨?_, h⟩
      intro b hb
      rcases List.mem_cons.mp hb with rfl | hbxs
      · exact of_decide_eq_true hle
      · exact le_trans (hx b hbxs) (of_decide_eq_true hle)
    · rw [if_neg hle]
      have hpx : p.2 ≤ x.2 :=
        le_of_not_le (fun hc => hle (decide_eq_true hc))
      refine List.pairwise_cons.mpr ⟨?_, ih hxs⟩
      intro b hb
      rcases List.mem_cons.mp ((insertDesc_perm p xs).mem_iff.mp hb) with rfl | hbxs
      · exact hpx
      · exact hx b hbxs

theorem sortDesc_sorted (l : List (Chars × ℚ)) :
    (sortDesc l).Pairwise fun a b => b.2 ≤ a.2 := by
  induction l with
  | nil => simp [sortDesc]
  | cons x xs ih => exact insertDesc_sorted x (sortDesc xs) ih

theorem sum_filter_split (l : List UsdRow) (p : UsdRow → Bool) :
    ((l.filter p).map fun r => r.amount_usd).sum
      + ((l.filter fun r => !(p r)).map fun r => r.amount_usd).sum
      = (l.map fun r => r.amount_usd).sum := by
  induction l with
  | nil => simp
  | cons r rs ih =>
    cases hp : p r
    · simp only [List.filter_cons, hp, Bool.not_false, if_neg, List.map_cons, List.sum_cons,
        Bool.false_eq_true, if_false, if_true]
      linarith [ih]
    · simp only [List.filter_cons, hp, Bool.not_true, List.map_cons, List.sum_cons,
        Bool.false_eq_true, if_false, if_true]
      linarith [ih]

theorem filter_fiber_sub (rows : List UsdRow) (c c' : Chars) (hne : c' ≠ c) :
    ((rows.filter fun r => !(decide (category r.account = c))).filter
        fun r => decide (category r.account = c'))
      = rows.filter fun r => decide (category r.account = c') := by
  induction rows with
  | nil => rfl
  | cons r rs ih =>
    by_cases h : category r.account = c'
    · have h2 : ¬ category r.account = c := fun hh => hne (h ▸ hh ▸ rfl)
      simp [List.filter_cons, h, h2, ih, hne, Ne.symm hne]
    · by_cases h3 : category r.account = c
      · simp [List.filter_cons, h, h3, ih, hne, Ne.symm hne]
      · simp [List.filter_cons, h, h3, ih, hne, Ne.symm hne]

theorem fiber_sum (cats : List Chars) (rows : List UsdRow) (hnd : cats.Nodup)
    (hcov : ∀ r ∈ rows, category r.account ∈ cats) :
    (cats.map fun c =>
        ((rows.filter fun r => decide (category r.account = c)).map
          fun r => r.amount_usd).sum).sum
      = (rows.map fun r => r.amount_usd).sum := by
  induction cats generalizing rows with
  | nil =>
    cases rows with
    | nil => simp
    | cons r rs => exact absurd (hcov r (List.mem_cons_self r rs)) (List.not_mem_nil _)
  | cons c cs ih =>
    rcases List.nodup_cons.mp hnd with ⟨hc, hcs⟩
    have hrw : cs.map (fun c' =>
        ((rows.filter fun r => decide (category r.account = c')).map
          fun r => r.amount_usd).sum)
        = cs.map (fun c' =>
        (((rows.filter fun r => !(decide (category r.account = c))).filter
            fun r => decide (category r.account = c')).map
          fun r => r.amount_usd).sum) := by
      apply List.map_congr_left
      intro c' hc'
      rw [filter_fiber_sub rows c c' (fun h => hc (h ▸ hc'))]
    have hcov2 : ∀ r ∈ (rows.filter fun r => !(decide (category r.account = c))),
        category r.account ∈ cs := by
      intro r hr
      rcases List.mem_filter.mp hr with ⟨hmem, hneq⟩
      rcases List.mem_cons.mp (hcov r hmem) with heq | hmem2
      · rw [heq] at hneq
        simp at hneq
      · exact hmem2
    simp only [List.map_cons, List.sum_cons]
    calc (((rows.filter fun r => decide (category r.account = c)).map
            fun r => r.amount_usd).sum)
          + (cs.map fun c' =>
              ((rows.filter fun r => decide (category r.account = c')).map
                fun r => r.amount_usd).sum).sum
        = (((rows.filter fun r => decide (category r.account = c)).map
            fun r => r.amount_usd).sum)
          + (((rows.filter fun r => !(decide (category r.account = c))).map
              fun r => r.amount_usd).sum) := by
          rw [hrw, ih _ hcs hcov2]
      _ = (rows.map fun r => r.amount_usd).sum := sum_filter_split rows _

/-- C6 (amended): the engine's `_opex_breakdown` includes exactly the
USD-normalised rows of the target month whose lower-cased account starts
with "opex"; each row's sub-category is the whitespace-stripped text after
the first colon, "Other" when the account has no colon; amounts are summed
per sub-category; the output is sorted descending by amount; and it is empty
(no error) when the month has no Opex rows.  (`FinanceTools.opex_breakdown`,
by contrast, is characterised by the counterexample: group-named default
instead of "Other", ordered by category name, zero-filled categories of
other months included.) -/
theorem opex_breakdown_engine_spec (df : List UsdRow) (m : MD) :
    ((opex_breakdown df m).Pairwise fun a b => b.2 ≤ a.2)
      ∧ ((opex_breakdown df m).map Prod.fst).Perm
          ((opexRowsAt df m).map fun r => category r.account).dedup
      ∧ (∀ p ∈ opex_breakdown df m,
          p.2 = (((opexRowsAt df m).filter
                    fun r => decide (category r.account = p.1)).map
                  fun r => r.amount_usd).sum)
      ∧ (opexRowsAt df m = [] → opex_breakdown df m = []) := by
  refine ⟨sortDesc_sorted _, ?_, ?_, ?_⟩
  · have hp := (sortDesc_perm (((opexRowsAt df m).map fun r => category r.account).dedup.map
      fun c => (c, (((opexRowsAt df m).filter fun r => decide (category r.account = c)).map
        fun r => r.amount_usd).sum))).map Prod.fst
    unfold opex_breakdown
    refine hp.trans ?_
    rw [List.map_map]
    have hid : (Prod.fst ∘ fun c : Chars =>
        (c, (((opexRowsAt df m).filter fun r => decide (category r.account = c)).map
          fun r => r.amount_usd).sum)) = fun c => c := by
      funext c
      rfl
    rw [hid, List.map_id']
  · intro p hp
    have hmem : p ∈ (((opexRowsAt df m).map fun r => category r.account).dedup.map
        fun c => (c, (((opexRowsAt df m).filter fun r => decide (category r.account = c)).map
          fun r => r.amount_usd).sum)) :=
      (sortDesc_perm _).subset hp
    rcases List.mem_map.mp hmem with ⟨c, _, rfl⟩
    rfl
  · intro h0
    unfold opex_breakdown
    rw [h0]
    rfl

theorem classify_opex_iff (a : Chars) :
    classify a = Kind.Opex ↔ isPre (kw ("opex")) (lower a) = true := by
  unfold classify
  by_cases h : isPre (kw ("opex")) (lower a) = true
  · simp [h]
  · simp only [h, Bool.false_eq_true, if_false]
    constructor
    · intro hk
      exfalso
      by_cases h2 : isPre (kw ("cogs")) (lower a) = true <;>
        by_cases h3 : isPre (kw ("revenue")) (lower a) = true <;>
        simp [h2, h3] at hk
    · exact fun hh => hh.elim

theorem opexRowsAt_eq_kindFilter (df : List UsdRow) (d : MD) :
    opexRowsAt df d
      = df.filter fun r => decide (r.date = d) && decide (classify r.account = Kind.Opex) := by
  unfold opexRowsAt
  congr 1
  funext r
  have : decide (classify r.account = Kind.Opex) = isPre (kw ("opex")) (lower r.account) := by
    cases h : isPre (kw ("opex")) (lower r.account)
    · exact decide_eq_false fun hc => by
        rw [(classify_opex_iff _).mp hc] at h
        exact Bool.noConfusion h
    · exact decide_eq_true ((classify_opex_iff _).mpr h)
  rw [this]

/-- C7 (confirmed): for every row of the engine's actuals aggregate, the
sum of the Opex category breakdown amounts for that row's month equals the
row's Opex column — the per-category grouping and the prefix-classified
pivot agree on the total. -/
theorem opex_breakdown_total_eq_pivot (df : List UsdRow) (row : AggRow)
    (hrow : row ∈ build_pivot df) :
    ((opex_breakdown df row.date).map fun p => p.2).sum = row.opex := by
  rcases List.mem_map.mp hrow with ⟨d, _, rfl⟩
  show ((opex_breakdown df d).map fun p => p.2).sum = kindSum df d Kind.Opex
  have hperm := (sortDesc_perm (((opexRowsAt df d).map fun r => category r.account).dedup.map
    fun c => (c, (((opexRowsAt df d).filter fun r => decide (category r.account = c)).map
      fun r => r.amount_usd).sum))).map fun p => p.2
  unfold opex_breakdown
  rw [hperm.sum_eq, List.map_map]
  have hfib := fiber_sum (((opexRowsAt df d).map fun r => category r.account).dedup)
    (opexRowsAt df d) (List.nodup_dedup _)
    (fun r hr => List.mem_dedup.mpr (List.mem_map_of_mem _ hr))
  refine Eq.trans ?_ (Eq.trans hfib ?_)
  · rfl
  · rw [opexRowsAt_eq_kindFilter]
    rfl

/-- Witness for C7 at a concrete one-month, one-opex-row table. -/
theorem opex_breakdown_total_eq_pivot_witness :
    ((opex_breakdown dfZeroRevEx ⟨2025, 1⟩).map fun p => p.2).sum
      = (enrichRow dfZeroRevEx ⟨2025, 1⟩).opex :=
  opex_breakdown_total_eq_pivot dfZeroRevEx (enrichRow dfZeroRevEx ⟨2025, 1⟩)
    (by simp [build_pivot, pivotDates, dfZeroRevEx, insertDate])

def toolsActEx : List UsdRow :=
  [⟨⟨2025, 6⟩, kw ("Opex"), kw ("USD"), 50, 1, 50⟩,
   ⟨⟨2025, 6⟩, kw ("Opex:Ads"), kw ("USD"), 10, 1, 10⟩]

/-- C6 counterexample: on a month holding the Opex rows "Opex" (no colon,
50) and "Opex:Ads" (10), the cited `FinanceTools.opex_breakdown` returns
categories ["Ads", "Opex"] with amounts [10, 50]: the colon-free account is
NOT defaulted to "Other" (it gets its group name "Opex"), and the output is
sorted ascending by category name, not descending by amount. -/
theorem opex_breakdown_tools_counterexample :
    tools_opex_breakdown toolsActEx [] ⟨2025, 6⟩
        = [(kw ("Ads"), 10, 0), (kw ("Opex"), 50, 0)]
      ∧ kw ("Other") ∉ [kw ("Ads"), kw ("Opex")]
      ∧ ¬ List.Pairwise (fun a b => b.2.1 ≤ a.2.1)
          [((kw ("Ads"), 10, 0) : Chars × ℚ × ℚ), (kw ("Opex"), 50, 0)] := by
  refine ⟨?_, by decide, ?_⟩
  · simp [tools_opex_breakdown, toolsOpexDates, toolsOpexCats, toolsOpexCell,
      pivotDates, insertDate, account_category, account_group, beforeColon, strip,
      afterColon, sortLex, insertLex, lexLe, toolsActEx, lower, lowerChar, kw,
      List.dedup, List.filter]
  · intro h
    have h50 : (50 : ℚ) ≤ 10 :=
      (List.pairwise_cons.mp h).1 ((kw ("Opex"), 50, 0) : Chars × ℚ × ℚ) (by simp)
    norm_num at h50

/-! ## Theorems (cash runway) -/

theorem MD.le_refl' (a : MD) : MD.le a a = true := by
  unfold MD.le
  simp

theorem MD.le_total' (a b : MD) : MD.le a b = true ∨ MD.le b a = true := by
  unfold MD.le
  simp only [Bool.or_eq_true, Bool.and_eq_true, decide_eq_true_eq]
  omega

theorem MD.le_trans' {a b c : MD} (h1 : MD.le a b = true) (h2 : MD.le b c = true) :
    MD.le a c = true := by
  unfold MD.le at *
  simp only [Bool.or_eq_true, Bool.and_eq_true, decide_eq_true_eq] at *
  omega

theorem lastMaxCash_cons (c r : CashRow) (rs : List CashRow) :
    lastMaxCash c (r :: rs) = lastMaxCash (if MD.le c.date r.date then r else c) rs := rfl

theorem lastMaxCash_mem (c : CashRow) (rest : List CashRow) :
    lastMaxCash c rest ∈ c :: rest := by
  induction rest generalizing c with
  | nil => exact List.mem_singleton.mpr rfl
  | cons r rs ih =>
    rw [lastMaxCash_cons]
    by_cases h : MD.le c.date r.date = true
    · rw [if_pos h]
      exact List.mem_cons_of_mem c (ih r)
    · rw [if_neg h]
      rcases List.mem_cons.mp (ih c) with h1 | h1
      · rw [h1]
        exact List.mem_cons_self _ _
      · exact List.mem_cons_of_mem c (List.mem_cons_of_mem r h1)

theorem lastMaxCash_isMax (c : CashRow) (rest : List CashRow) :
    ∀ x ∈ c :: rest, MD.le x.date (lastMaxCash c rest).date = true := by
  induction rest generalizing c with
  | nil =>
    intro x hx
    rcases List.mem_singleton.mp hx with rfl
    exact MD.le_refl' _
  | cons r rs ih =>
    intro x hx
    rw [lastMaxCash_cons]
    have hcc2 : MD.le c.date (if MD.le c.date r.date then r else c).date = true := by
      by_cases h : MD.le c.date r.date = true
      · rw [if_pos h]
        exact h
      · rw [if_neg h]
        exact MD.le_refl' _
    have hrc2 : MD.le r.date (if MD.le c.date r.date then r else c).date = true := by
      by_cases h : MD.le c.date r.date = true
      · rw [if_pos h]
        exact MD.le_refl' _
      · rw [if_neg h]
        exact (MD.le_total' c.date r.date).resolve_left h
    have hmax := ih (if MD.le c.date r.date then r else c)
    rcases List.mem_cons.mp hx with rfl | hx2
    · exact MD.le_trans' hcc2 (hmax _ (List.mem_cons_self _ _))
    · rcases List.mem_cons.mp hx2 with rfl | hx3
      · exact MD.le_trans' hrc2 (hmax _ (List.mem_cons_self _ _))
      · exact hmax x (List.mem_cons_of_mem _ hx3)

theorem sum_map_negQ (l : List AggRow) (f : AggRow → ℚ) :
    (l.map fun r => -(f r)).sum = -((l.map f).sum) := by
  induction l with
  | nil => simp
  | cons x xs ih =>
    simp only [List.map_cons, List.sum_cons, ih]
    ring

/-- C1 (amended): for the engine's `_cash_runway_months` the claim holds
with the trailing window fixed at N = 3: net burn per month is
Opex + COGS − Revenue, equivalently −EBITDA, averaged over the last three
(fewer when the history is shorter, without error) rows of the actuals
aggregate; the runway is the distinguishable infinite value iff that
average is ≤ 0, and otherwise the latest cash balance — a cash row of
maximal date — divided by the average burn.  `FinanceTools.cash_runway`,
by contrast, clips each month's burn at zero before averaging (see the
counterexample), so cash-generating months cannot offset burning ones. -/
theorem cash_runway_engine_spec (df : List UsdRow) (c : CashRow) (rest : List CashRow)
    (h3 : lastN 3 (build_pivot df) ≠ []) :
    cash_runway_months (c :: rest) (build_pivot df)
        = (if -(mean ((lastN 3 (build_pivot df)).map fun r => r.ebitda)) ≤ 0
           then Except.ok Runway.inf
           else Except.ok (Runway.months ((lastMaxCash c rest).cash_balance
                  / -(mean ((lastN 3 (build_pivot df)).map fun r => r.ebitda)))))
      ∧ lastMaxCash c rest ∈ c :: rest
      ∧ (∀ x ∈ c :: rest, MD.le x.date (lastMaxCash c rest).date = true) := by
  refine ⟨?_, lastMaxCash_mem c rest, lastMaxCash_isMax c rest⟩
  have hmapeq : (lastN 3 (build_pivot df)).map (fun r => r.opex + r.cogs - r.revenue)
      = (lastN 3 (build_pivot df)).map fun r => -(r.ebitda) := by
    apply List.map_congr_left
    intro r hr
    have hmem : r ∈ build_pivot df := List.drop_subset _ _ hr
    rcases List.mem_map.mp hmem with ⟨d, _, rfl⟩
    show kindSum df d Kind.Opex + kindSum df d Kind.Cogs - kindSum df d Kind.Revenue
        = -(kindSum df d Kind.Revenue - kindSum df d Kind.Cogs - kindSum df d Kind.Opex)
    ring
  have hburn : mean ((lastN 3 (build_pivot df)).map fun r => r.opex + r.cogs - r.revenue)
      = -(mean ((lastN 3 (build_pivot df)).map fun r => r.ebitda)) := by
    rw [hmapeq]
    unfold mean
    rw [sum_map_negQ, List.length_map, List.length_map, neg_div]
  cases hl : lastN 3 (build_pivot df) with
  | nil => exact absurd hl h3
  | cons p ps =>
    rw [hl] at hburn
    have heq : cash_runway_months (c :: rest) (build_pivot df)
        = (if mean ((p :: ps).map fun r => r.opex + r.cogs - r.revenue) ≤ 0
           then Except.ok Runway.inf
           else Except.ok (Runway.months ((lastMaxCash c rest).cash_balance
                  / mean ((p :: ps).map fun r => r.opex + r.cogs - r.revenue)))) := by
      unfold cash_runway_months
      rw [hl]
    rw [heq, hburn]

def runwayRowsEx : List UsdRow :=
  [⟨⟨2025, 1⟩, kw ("Revenue:Sales"), kw ("USD"), 100, 1, 100⟩,
   ⟨⟨2025, 2⟩, kw ("Opex:Ads"), kw ("USD"), 40, 1, 40⟩]

def runwayCashEx : List CashRow := [⟨⟨2025, 2⟩, 100⟩]

theorem kindDecideFacts :
    (decide (Kind.Revenue = Kind.Revenue) = true)
      ∧ (decide (Kind.Revenue = Kind.Cogs) = false)
      ∧ (decide (Kind.Revenue = Kind.Opex) = false)
      ∧ (decide (Kind.Opex = Kind.Revenue) = false)
      ∧ (decide (Kind.Opex = Kind.Cogs) = false)
      ∧ (decide (Kind.Opex = Kind.Opex) = true) :=
  ⟨rfl, rfl, rfl, rfl, rfl, rfl⟩

theorem groupDecideFacts :
    (decide (account_group (kw ("Revenue:Sales")) = kw ("Revenue")) = true)
      ∧ (decide (account_group (kw ("Revenue:Sales")) = kw ("COGS")) = false)
      ∧ (decide (account_group (kw ("Revenue:Sales")) = kw ("Opex")) = false)
      ∧ (decide (account_group (kw ("Opex:Ads")) = kw ("Revenue")) = false)
      ∧ (decide (account_group (kw ("Opex:Ads")) = kw ("COGS")) = false)
      ∧ (decide (account_group (kw ("Opex:Ads")) = kw ("Opex")) = true) := by
  refine ⟨by decide, by decide, by decide, by decide, by decide, by decide⟩

theorem summariseRunwayRows :
    summarise_pl runwayRowsEx =
      [⟨⟨2025, 1⟩, 100, 0, 0, 100, some 100, 100, some 100⟩,
       ⟨⟨2025, 2⟩, 0, 0, 40, 0, none, -40, none⟩] := by
  norm_num [summarise_pl, pivotDates, insertDate, MD.le, summariseRow, groupSum,
    runwayRowsEx, List.filter, groupDecideFacts.1, groupDecideFacts.2.1,
    groupDecideFacts.2.2.1, groupDecideFacts.2.2.2.1, groupDecideFacts.2.2.2.2.1,
    groupDecideFacts.2.2.2.2.2]

/-- C1 counterexample: over months with EBITDA +100 and −40 and cash 100,
the average of Opex + COGS − Revenue over the trailing window is −30 ≤ 0,
so the claim requires the distinguishable infinite runway — but the cited
`FinanceTools.cash_runway` clips each month's burn at zero before averaging
(average 20) and returns the finite runway 100 / 20 = 5 months. -/
theorem cash_runway_clip_counterexample :
    mean ((lastN 3 (summarise_pl runwayRowsEx)).map fun r => r.opex + r.cogs - r.revenue) ≤ 0
      ∧ tools_cash_runway runwayCashEx (summarise_pl runwayRowsEx) 3 = Runway.months 5
      ∧ Runway.months 5 ≠ Runway.inf := by
  refine ⟨?_, ?_, by decide⟩
  · rw [summariseRunwayRows]
    norm_num [mean, lastN]
  · rw [summariseRunwayRows]
    norm_num [tools_cash_runway, runwayCashEx, lastMaxCash, lastN, mean, max_def,
      List.isEmpty]

/-- Witness for C1's amended theorem at a concrete two-month table: months
with EBITDA +100 and −40 average to a net burn of −30 ≤ 0, and the engine's
`_cash_runway_months` indeed returns the infinite marker. -/
theorem cash_runway_engine_spec_witness :
    cash_runway_months [⟨⟨2025, 2⟩, 100⟩] (build_pivot runwayRowsEx) = Except.ok Runway.inf := by
  have h := (cash_runway_engine_spec runwayRowsEx ⟨⟨2025, 2⟩, 100⟩ [] (by decide)).1
  have c1 : classify (kw ("Revenue:Sales")) = Kind.Revenue := by decide
  have c2 : classify (kw ("Opex:Ads")) = Kind.Opex := by decide
  have hp : (build_pivot runwayRowsEx).map (fun r => r.ebitda) = [100, -40] := by
    norm_num [build_pivot, pivotDates, insertDate, MD.le, enrichRow, kindSum,
      runwayRowsEx, List.filter, c1, c2, kindDecideFacts.1, kindDecideFacts.2.1,
      kindDecideFacts.2.2.1, kindDecideFacts.2.2.2.1, kindDecideFacts.2.2.2.2.1,
      kindDecideFacts.2.2.2.2.2]
  rw [h, show lastN 3 (build_pivot runwayRowsEx) = build_pivot runwayRowsEx from rfl, hp]
  norm_num [mean]

/-! ## Theorems (answer: plotting seam and month fallback) -/

theorem runwayBranch_noChart (cash : List CashRow) (aPv : List AggRow) :
    runwayBranch cash aPv = (runwayBranch cash aPv).map eraseChart := by
  unfold runwayBranch
  split <;> rfl

theorem gmBranch_plotting (aPv bPv : List AggRow) (q : Chars) (mOpt : Option MD) :
    gmBranch aPv bPv q false mOpt = (gmBranch aPv bPv q true mOpt).map eraseChart := by
  unfold gmBranch
  repeat' split
  all_goals first
    | rfl
    | contradiction

theorem map_eraseChart_ok {x : Except Unit AnswerResult} {res : AnswerResult}
    (h : x.map eraseChart = Except.ok res) : res.chart = none := by
  cases x with
  | error e => exact Except.noConfusion h
  | ok y =>
    simp only [Except.map] at h
    injection h with h2
    rw [← h2]
    rfl

theorem runwayBranch_ok (cash : List CashRow) (aPv : List AggRow) (res : AnswerResult) :
    runwayBranch cash aPv = Except.ok res →
      runwayBranch cash aPv = Except.ok (eraseChart res) := by
  intro h
  rw [runwayBranch_noChart cash aPv, h]
  rfl

theorem runwayBranch_chart_none (cash : List CashRow) (aPv : List AggRow)
    (res : AnswerResult) :
    runwayBranch cash aPv = Except.ok res → res.chart = none := by
  intro h
  rw [runwayBranch_noChart cash aPv] at h
  exact map_eraseChart_ok h

theorem gmBranch_ok (aPv bPv : List AggRow) (q : Chars) (mOpt : Option MD)
    (res : AnswerResult) :
    gmBranch aPv bPv q true mOpt = Except.ok res →
      gmBranch aPv bPv q false mOpt = Except.ok (eraseChart res) := by
  intro h
  rw [gmBranch_plotting aPv bPv q mOpt, h]
  rfl

theorem gmBranch_chart_none (aPv bPv : List AggRow) (q : Chars) (mOpt : Option MD)
    (res : AnswerResult) :
    gmBranch aPv bPv q false mOpt = Except.ok res → res.chart = none := by
  intro h
  rw [gmBranch_plotting aPv bPv q mOpt] at h
  exact map_eraseChart_ok h

/-- On the opex branch plotting=true raises whenever a chart would be drawn
(`_bar_chart` always raises), so a returned result forces an empty
breakdown, where plotting plays no further role. -/
theorem opexBranch_ok (aUsd : List UsdRow) (mOpt : Option MD) (res : AnswerResult) :
    opexBranch aUsd true mOpt = Except.ok res →
      opexBranch aUsd false mOpt = Except.ok (eraseChart res) := by
  intro h
  cases mOpt with
  | none => exact Except.noConfusion h
  | some m =>
    simp only [opexBranch] at h ⊢
    rcases Bool.eq_false_or_eq_true ((opex_breakdown aUsd m).isEmpty) with he | he
    · have hcT : (true && !(opex_breakdown aUsd m).isEmpty) = false := by
        rw [he]
        rfl
      have hcF : (false && !(opex_breakdown aUsd m).isEmpty) = false := rfl
      rw [hcT, if_neg Bool.false_ne_true] at h
      rw [hcF, if_neg Bool.false_ne_true]
      rw [← Except.ok.inj h]
      rfl
    · have hcT : (true && !(opex_breakdown aUsd m).isEmpty) = true := by
        rw [he]
        rfl
      rw [hcT, if_pos rfl] at h
      exact Except.noConfusion h

theorem opexBranch_chart_none (aUsd : List UsdRow) (mOpt : Option MD)
    (res : AnswerResult) :
    opexBranch aUsd false mOpt = Except.ok res → res.chart = none := by
  intro h
  cases mOpt with
  | none => exact Except.noConfusion h
  | some m =>
    simp only [opexBranch] at h
    have hcF : (false && !(opex_breakdown aUsd m).isEmpty) = false := rfl
    rw [hcF, if_neg Bool.false_ne_true] at h
    rw [← Except.ok.inj h]

theorem ebitdaBranch_plotting (aPv bPv : List AggRow) (q : Chars) (mOpt : Option MD) :
    ebitdaBranch aPv bPv q false mOpt = (ebitdaBranch aPv bPv q true mOpt).map eraseChart := by
  unfold ebitdaBranch
  repeat' split
  all_goals first
    | rfl
    | contradiction

theorem revenueBranch_plotting (aPv bPv : List AggRow) (q : Chars) (mOpt : Option MD) :
    revenueBranch aPv bPv q false mOpt = (revenueBranch aPv bPv q true mOpt).map eraseChart := by
  unfold revenueBranch
  repeat' split
  all_goals first
    | rfl
    | contradiction

theorem ebitdaBranch_ok (aPv bPv : List AggRow) (q : Chars) (mOpt : Option MD)
    (res : AnswerResult) :
    ebitdaBranch aPv bPv q true mOpt = Except.ok res →
      ebitdaBranch aPv bPv q false mOpt = Except.ok (eraseChart res) := by
  intro h
  rw [ebitdaBranch_plotting aPv bPv q mOpt, h]
  rfl

theorem ebitdaBranch_chart_none (aPv bPv : List AggRow) (q : Chars) (mOpt : Option MD)
    (res : AnswerResult) :
    ebitdaBranch aPv bPv q false mOpt = Except.ok res → res.chart = none := by
  intro h
  rw [ebitdaBranch_plotting aPv bPv q mOpt] at h
  exact map_eraseChart_ok h

theorem revenueBranch_ok (aPv bPv : List AggRow) (q : Chars) (mOpt : Option MD)
    (res : AnswerResult) :
    revenueBranch aPv bPv q true mOpt = Except.ok res →
      revenueBranch aPv bPv q false mOpt = Except.ok (eraseChart res) := by
  intro h
  rw [revenueBranch_plotting aPv bPv q mOpt, h]
  rfl

theorem revenueBranch_chart_none (aPv bPv : List AggRow) (q : Chars) (mOpt : Option MD)
    (res : AnswerResult) :
    revenueBranch aPv bPv q false mOpt = Except.ok res → res.chart = none := by
  intro h
  rw [revenueBranch_plotting aPv bPv q mOpt] at h
  exact map_eraseChart_ok h

theorem answerCore_plotting (aPv bPv : List AggRow) (aUsd : List UsdRow)
    (cash : List CashRow) (q : Chars) (mOpt : Option MD) (res : AnswerResult) :
    answerCore aPv bPv aUsd cash q true mOpt = Except.ok res →
      answerCore aPv bPv aUsd cash q false mOpt = Except.ok (eraseChart res) := by
  simp only [answerCore]
  by_cases c1 : (hasSub (kw ("cash runway")) (lower q)
      || (hasSub (kw ("cash")) (lower q) && hasSub (kw ("runway")) (lower q))) = true
  · rw [if_pos c1, if_pos c1]
    exact runwayBranch_ok cash aPv res
  · rw [if_neg c1, if_neg c1]
    by_cases c2 : hasSub (kw ("gross margin")) (lower q) = true
    · rw [if_pos c2, if_pos c2]
      exact gmBranch_ok aPv bPv q mOpt res
    · rw [if_neg c2, if_neg c2]
      by_cases c3 : (hasSub (kw ("opex")) (lower q)
          && (hasSub (kw ("break down")) (lower q) || hasSub (kw ("breakdown")) (lower q)
              || hasSub (kw ("by category")) (lower q))) = true
      · rw [if_pos c3, if_pos c3]
        exact opexBranch_ok aUsd mOpt res
      · rw [if_neg c3, if_neg c3]
        by_cases c4 : hasSub (kw ("ebitda")) (lower q) = true
        · rw [if_pos c4, if_pos c4]
          exact ebitdaBranch_ok aPv bPv q mOpt res
        · rw [if_neg c4, if_neg c4]
          exact revenueBranch_ok aPv bPv q mOpt res

theorem answerCore_false_chart (aPv bPv : List AggRow) (aUsd : List UsdRow)
    (cash : List CashRow) (q : Chars) (mOpt : Option MD) (res : AnswerResult) :
    answerCore aPv bPv aUsd cash q false mOpt = Except.ok res → res.chart = none := by
  simp only [answerCore]
  by_cases c1 : (hasSub (kw ("cash runway")) (lower q)
      || (hasSub (kw ("cash")) (lower q) && hasSub (kw ("runway")) (lower q))) = true
  · rw [if_pos c1]
    exact runwayBranch_chart_none cash aPv res
  · rw [if_neg c1]
    by_cases c2 : hasSub (kw ("gross margin")) (lower q) = true
    · rw [if_pos c2]
      exact gmBranch_chart_none aPv bPv q mOpt res
    · rw [if_neg c2]
      by_cases c3 : (hasSub (kw ("opex")) (lower q)
          && (hasSub (kw ("break down")) (lower q) || hasSub (kw ("breakdown")) (lower q)
              || hasSub (kw ("by category")) (lower q))) = true
      · rw [if_pos c3]
        exact opexBranch_chart_none aUsd mOpt res
      · rw [if_neg c3]
        by_cases c4 : hasSub (kw ("ebitda")) (lower q) = true
        · rw [if_pos c4]
          exact ebitdaBranch_chart_none aPv bPv q mOpt res
        · rw [if_neg c4]
          exact revenueBranch_chart_none aPv bPv q mOpt res

/-- C8 (amended): for the agent engine (src/agent/engine.py), whenever the
plotting=true call returns a result, the plotting=false call returns exactly
that result with the chart field erased, and every result returned under
plotting=false carries no chart; plotting=true can however raise where
plotting=false succeeds — on a nonempty opex breakdown the figure builder
`_bar_chart` always raises (`tick_params` rejects its `ha` keyword), see the
counterexample.  The flat near-duplicate engine (src/engine.py) returns a
result that does not depend on `plotting` at all, so its text and table are
likewise unaffected, but its trend branches report chart "rendered" even
under plotting=false (also in the counterexample). -/
theorem plotting_false_suppresses_chart (aPv bPv : List AggRow) (aUsd : List UsdRow)
    (cash : List CashRow) (q : Chars) :
    (∀ res, answer aPv bPv aUsd cash q true = Except.ok res →
        answer aPv bPv aUsd cash q false = Except.ok (eraseChart res))
      ∧ (∀ res, answer aPv bPv aUsd cash q false = Except.ok res → res.chart = none)
      ∧ answerFlat aPv bPv aUsd cash q false = answerFlat aPv bPv aUsd cash q true := by
  refine ⟨?_, ?_, rfl⟩
  · intro res
    exact answerCore_plotting aPv bPv aUsd cash q (resolveMonth aPv q) res
  · intro res
    exact answerCore_false_chart aPv bPv aUsd cash q (resolveMonth aPv q) res

def aggJunEx : AggRow := ⟨⟨2025, 6⟩, 0, 0, 0, 0, none, 0, none⟩

def opexUsdEx : List UsdRow := [⟨⟨2025, 6⟩, kw ("Opex:Ads"), kw ("USD"), 10, 1, 10⟩]

/-- C8 counterexample: the cited src/engine.py `answer` on "revenue trend"
with plotting=false still returns a chart field "rendered" (not absent/None)
— only the matplotlib side effect is suppressed.  And in src/agent/engine.py
itself, on "break down opex" over a month holding one Opex row, plotting=true
raises (`_bar_chart`'s `tick_params(..., ha="right")` ValueError) while
plotting=false returns a result — so the claimed text/table equality with
the plotting=true call fails there too. -/
theorem flat_engine_chart_rendered_counterexample :
    (answerFlat [aggJunEx] [aggJunEx] [] [] (kw ("revenue trend")) false
        = Except.ok ⟨kw ("Displayed Revenue trend"), some (kw ("rendered")), none⟩)
      ∧ (some (kw ("rendered")) : Option Chars) ≠ none
      ∧ answer [aggJunEx] [aggJunEx] opexUsdEx [] (kw ("break down opex")) true
          = Except.error ()
      ∧ (answer [aggJunEx] [aggJunEx] opexUsdEx [] (kw ("break down opex")) false).isOk
          = true :=
  ⟨by decide, by decide, by decide, by decide⟩

/-- Witness for C8's amended theorem: on "ebitda trend" the plotting=true
call returns a line-chart result, and the theorem instantiates to the
plotting=false call returning the same result with the chart erased. -/
theorem plotting_false_suppresses_chart_witness :
    answer [aggJunEx] [aggJunEx] [] [] (kw ("ebitda trend")) false
      = Except.ok (eraseChart ⟨kw ("Displayed EBITDA trend"),
          some (Chart.line (kw ("EBITDA Trend")) (kw ("USD")) (kw ("Actual EBITDA"))
            [(⟨2025, 6⟩, 0)] none (kw ("Budget EBITDA"))), none⟩) :=
  (plotting_false_suppresses_chart [aggJunEx] [aggJunEx] [] [] (kw ("ebitda trend"))).1
    ⟨kw ("Displayed EBITDA trend"),
      some (Chart.line (kw ("EBITDA Trend")) (kw ("USD")) (kw ("Actual EBITDA"))
        [(⟨2025, 6⟩, 0)] none (kw ("Budget EBITDA"))), none⟩
    (by decide)

theorem foldMax_mem (d : MD) (rest : List MD) :
    (rest.foldl (fun a x => if MD.le a x then x else a) d) ∈ d :: rest := by
  induction rest generalizing d with
  | nil => exact List.mem_singleton.mpr rfl
  | cons r rs ih =>
    rw [show (r :: rs).foldl (fun a x => if MD.le a x then x else a) d
        = rs.foldl (fun a x => if MD.le a x then x else a) (if MD.le d r then r else d)
      from rfl]
    by_cases h : MD.le d r = true
    · rw [if_pos h]
      exact List.mem_cons_of_mem d (ih r)
    · rw [if_neg h]
      rcases List.mem_cons.mp (ih d) with h1 | h1
      · rw [h1]
        exact List.mem_cons_self _ _
      · exact List.mem_cons_of_mem d (List.mem_cons_of_mem r h1)

theorem maxD_mem {l : List MD} (h : l ≠ []) : ∃ d, maxD l = some d ∧ d ∈ l := by
  cases l with
  | nil => exact absurd rfl h
  | cons x xs => exact ⟨_, rfl, foldMax_mem x xs⟩

/-- C10 (confirmed): in the engine built by `build_engine` in
src/agent/engine.py, a successfully parsed month that is not a row of the
actuals aggregate silently falls back to the latest month: the resolved
month becomes the index maximum — which exists and is a member of the index
— and the answer equals the answer body evaluated at that fallback month,
so the actuals lookup of a point query cannot miss on an out-of-range
month. -/
theorem month_fallback_to_latest (aPv bPv : List AggRow) (aUsd : List UsdRow)
    (cash : List CashRow) (q : Chars) (plotting : Bool) (m : MD)
    (hm : extract_month q = some m) (hnot : m ∉ pivotIndex aPv) (hne : aPv ≠ []) :
    resolveMonth aPv q = maxD (pivotIndex aPv)
      ∧ (∃ dmax, maxD (pivotIndex aPv) = some dmax ∧ dmax ∈ pivotIndex aPv)
      ∧ answer aPv bPv aUsd cash q plotting
          = answerCore aPv bPv aUsd cash q plotting (maxD (pivotIndex aPv)) := by
  have hres : resolveMonth aPv q = maxD (pivotIndex aPv) := by
    unfold resolveMonth
    rw [hm]
    simp only [decide_eq_false hnot, Bool.false_eq_true, if_false]
  have hne2 : pivotIndex aPv ≠ [] := by
    cases aPv with
    | nil => exact absurd rfl hne
    | cons r rs => simp [pivotIndex]
  refine ⟨hres, maxD_mem hne2, ?_⟩
  unfold answer
  rw [hres]

/-- Witness for C10: with a single June 2025 aggregate row, the out-of-range
question month January 2030 resolves to June 2025. -/
theorem month_fallback_to_latest_witness :
    resolveMonth [aggJunEx] (kw ("jan 2030 revenue")) = some ⟨2025, 6⟩ := by
  have h := (month_fallback_to_latest [aggJunEx] [] [] [] (kw ("jan 2030 revenue")) false
    ⟨2030, 1⟩ (by decide) (by decide) (by decide)).1
  rw [h]
  rfl

end CFO
